import Mathlib

/-!
Verification development for the vncterm repository.

The definitions below are a shallow embedding of the C sources:

* namespace Console embeds the terminal emulator of src/console.c
  (first variant, lines 1-2374): the TextConsole state, the
  ring-buffer coordinate maps, scrolling, the escape-parameter
  machinery, the UTF-8 decoder with codepage translation, the
  byte-oriented state machine console_putchar, and the chunked host
  write queue write_or_chunk.
* namespace Vnc embeds the RFB server core of src/libvnc/textterm.c:
  the refresh-pacing tick _vnc_update_client, the dirty-row drain of
  vnc_process_messages with find_update_height, set_encodings, and
  the ServerInit message of protocol_client_init.

Machine integers are modelled as Nat (unsigned data, byte values, bit
masks) and Int (C int coordinates and counters); C truncating division
and remainder on int are Int.tdiv and Int.tmod.  The C cell array and
the per-row dirty words are modelled as total functions from the index
type; unwritten indices hold the initial value.  Display rendering
(vga_*, dpy_update, update_xy) and host-bound reply bytes (va_write)
do not modify the TextConsole state and are therefore not part of the
embedded state; socket writes are modelled by an explicit oracle list
giving the byte count each write call accepts.
-/

namespace Console

/-- Text attributes of a cell or of the console (struct TextAttributes).
The two-entry codec array is split into the fields codec0 and codec1. -/
structure TextAttributes where
  fgcol : Nat
  bgcol : Nat
  bold : Bool
  uline : Bool
  blink : Bool
  invers : Bool
  unvisible : Bool
  used : Bool
  utf : Bool
  font : Nat
  codec0 : Nat
  codec1 : Nat
  deriving DecidableEq

/-- Reading codec[f] for font slot f (0 = G0, 1 = G1). -/
def TextAttributes.codec (a : TextAttributes) (f : Nat) : Nat :=
  if f = 0 then a.codec0 else a.codec1

/-- Writing codec[f] for font slot f. -/
def TextAttributes.setCodec (a : TextAttributes) (f : Nat) (v : Nat) : TextAttributes :=
  if f = 0 then { a with codec0 := v } else { a with codec1 := v }

/-- Per-cell attributes (struct CellAttributes). -/
structure CellAttributes where
  highlit : Bool
  wrapped : Bool
  deriving DecidableEq

/-- One character cell (struct TextCell). -/
structure TextCell where
  ch : Nat
  t_attrib : TextAttributes
  c_attrib : CellAttributes
  deriving DecidableEq

/-- MAX_ESC_PARAMS as defined at console.c line 72: the source sets it to 3. -/
def MAX_ESC_PARAMS : Nat := 3

/-- DEFAULT_BACKSCROLL of console.c. -/
def DEFAULT_BACKSCROLL : Int := 512

/-- Emulator states (enum TTYState). -/
inductive TTYState where
  | norm
  | esc
  | percent
  | g0
  | g1
  | csi
  deriving DecidableEq

/-- Selection rectangle endpoints (struct selection). -/
structure Selection where
  startx : Int
  starty : Int
  endx : Int
  endy : Int
  deriving DecidableEq

/-- Codec index of the Latin-1 map.  Modelled from the spec: consmap.h is
not part of src/; the spec only requires four codec slots LAT1, GRAF,
IBMPC and USER, numbered 0 to 3 per the source comment on the codec
field. -/
def MAPLAT1 : Nat := 0

/-- Codec index of the graphics map.  Modelled from the spec, see MAPLAT1. -/
def MAPGRAF : Nat := 1

/-- Codec index of the IBM PC map.  Modelled from the spec, see MAPLAT1. -/
def MAPIBMPC : Nat := 2

/-- Codec index of the user map.  Modelled from the spec, see MAPLAT1. -/
def MAPUSER : Nat := 3

/-- The console state (struct TextConsole), restricted to the fields the
terminal emulator reads or writes.  The cell array is a total function
from the flat index used by the source (virtual row times width plus
column); the selections array is indexed by a Bool (false = current,
true = committed). -/
structure TextConsole where
  g_width : Int
  g_height : Int
  width : Int
  height : Int
  backscroll : Int
  total_height : Int
  x : Int
  y : Int
  saved_x : Int
  saved_y : Int
  cursor_visible : Bool
  y_base : Int
  y_scroll : Int
  sr_top : Int
  sr_bottom : Int
  autowrap : Bool
  wrapped : Bool
  insert_mode : Bool
  cursorkey_mode : Bool
  origin_mode : Bool
  t_attrib_default : TextAttributes
  t_attrib : TextAttributes
  saved_t_attrib : TextAttributes
  cells : Int → TextCell
  c_attrib_default : CellAttributes
  state : TTYState
  esc_params : Nat → Int
  nb_esc_params : Nat
  has_esc_param : Bool
  has_qmark : Bool
  selections : Bool → Selection
  selecting : Bool
  mouse_x : Int
  mouse_y : Int
  unicodeIndex : Nat
  unicodeData : Nat → Nat
  unicodeLength : Nat

/-- Clamp a row value as the clip_y macro does: lower bound first, then
the upper bound on the updated value. -/
def clip_y_val (s : TextConsole) (v : Int) : Int :=
  let v := if v < 0 then 0 else v
  if v ≥ s.height then s.height - 1 else v

/-- Clamp a column value as the clip_x macro does. -/
def clip_x_val (s : TextConsole) (v : Int) : Int :=
  let v := if v < 0 then 0 else v
  if v ≥ s.width then s.width - 1 else v

/-- Projection of a virtual (ring) line onto the displayed screen
(console.c virtual_to_screen).  The result may be negative or beyond
the height, as the source comment warns. -/
def virtual_to_screen (s : TextConsole) (y : Int) : Int :=
  let y := y - (s.y_base - s.y_scroll)
  if y < 0 then y + s.total_height else y

/-- Projection of a screen line onto the cell ring
(console.c screen_to_virtual).  The C remainder operator truncates, so
the result of the remainder may be negative and is corrected once. -/
def screen_to_virtual (s : TextConsole) (y : Int) : Int :=
  let y := y + (s.y_base - s.y_scroll)
  let y := Int.tmod y s.total_height
  if y < 0 then y + s.total_height else y

/-- Cursor update (console.c set_cursor): clears the pending-wrap flag. -/
def set_cursor (s : TextConsole) (x y : Int) : TextConsole :=
  { s with y := y, wrapped := false, x := x }

/-- Replace the whole cell array; used to express the loops of the source
that write a range of cells. -/
def setCells (s : TextConsole) (c : Int → TextCell) : TextConsole :=
  { s with cells := c }

/-- Write one escape-parameter slot. -/
def setParam (s : TextConsole) (i : Nat) (v : Int) : TextConsole :=
  { s with esc_params := fun j => if j = i then v else s.esc_params j }

/-- Blank a line segment (console.c clear_line): each cleared cell takes
the default text attributes with the current fore/background colours;
only the wrapped bit of the cell attributes is reset. -/
def clear_line (s : TextConsole) (line from_x to_x : Int) : TextConsole :=
  if to_x ≤ from_x then s
  else
    let to_x := if to_x > s.width then s.width else to_x
    let m_fy := screen_to_virtual s line
    setCells s (fun j =>
      if m_fy * s.width + from_x ≤ j ∧ j < m_fy * s.width + to_x then
        { ch := 32,
          t_attrib := { s.t_attrib_default with
                          fgcol := s.t_attrib.fgcol, bgcol := s.t_attrib.bgcol },
          c_attrib := { (s.cells j).c_attrib with
                          wrapped := s.c_attrib_default.wrapped } }
      else s.cells j)

/-- Loop body of console.c clear: line i is cleared from from_x only when
i = 0 and up to to_x only when i is the last line.  The remaining
iteration count n stands for the loop condition i < height, which the
body never changes. -/
def clear_go (from_x start_y to_x height : Int) (s : TextConsole) (i n : Nat) :
    TextConsole :=
  match n with
  | 0 => s
  | n + 1 =>
    clear_go from_x start_y to_x height
      (clear_line s (start_y + i) (if i = 0 then from_x else 0)
        (if (i : Int) = height - 1 then to_x else s.width)) (i + 1) n

/-- Rectangular clear (console.c clear). -/
def clear (s : TextConsole) (from_x start_y to_x height : Int) : TextConsole :=
  clear_go from_x start_y to_x height s 0 height.toNat

/-- View scrolling (console.c console_scroll).  Only the clamped y_scroll
update touches the modelled state; the rest of the function repaints. -/
def console_scroll (s : TextConsole) (ydelta : Int) : TextConsole :=
  let ysc := s.y_scroll + (-ydelta)
  let ysc := if ysc > s.backscroll then s.backscroll else ysc
  let ysc := if ysc < 0 then 0 else ysc
  { s with y_scroll := ysc }

/-- Return the view to the live screen (console.c scroll_to_base). -/
def scroll_to_base (s : TextConsole) : TextConsole :=
  if s.y_scroll ≠ 0 then console_scroll s s.y_scroll else s

/-- Loop body of console.c scroll_text_cells: each step copies one whole
row of cells from screen line f to screen line t. -/
def scroll_text_cells_go (direction : Int) (n : Nat) (f t : Int)
    (s : TextConsole) : TextConsole :=
  match n with
  | 0 => s
  | n + 1 =>
    let m_fy := screen_to_virtual s f
    let m_ty := screen_to_virtual s t
    let s := setCells s (fun j =>
      if m_ty * s.width ≤ j ∧ j < m_ty * s.width + s.width then
        s.cells (m_fy * s.width + (j - m_ty * s.width))
      else s.cells j)
    scroll_text_cells_go direction n (f + direction) (t + direction) s

/-- Row mover used for scroll-region scrolling (console.c
scroll_text_cells): moves abs by rows one at a time, direction from the
sign of by. -/
def scroll_text_cells (s : TextConsole) (f t by_ : Int) : TextConsole :=
  let direction := Int.tdiv by_ (by_.natAbs : Int)
  scroll_text_cells_go direction by_.natAbs f t s

/-- Downward scroll (console.c scroll_down): in-place row moves inside a
strict scroll region, ring rewind otherwise. -/
def scroll_down (s : TextConsole) (n : Int) : TextConsole :=
  if s.sr_top ≠ 0 ∨ s.sr_bottom ≠ s.height - 1 then
    if n ≥ s.sr_bottom - s.sr_top then
      clear s 0 s.sr_top s.width (s.sr_bottom - s.sr_top)
    else
      let s := scroll_text_cells s (s.sr_bottom - n) s.sr_bottom
        ((s.sr_bottom - s.sr_top - n + 1) * (-1))
      clear s 0 s.sr_top s.width n
  else if s.backscroll = 0 then s
  else
    let bs := s.backscroll - n
    let n := if bs < 0 then n + bs else n
    let bs := if bs < 0 then 0 else bs
    let yb := s.y_base - n
    let yb := if yb < 0 then yb + s.total_height else yb
    let s := { s with backscroll := bs, y_base := yb }
    clear s 0 0 s.width n

/-- Upward scroll (console.c scroll_up): in-place row moves inside a
strict scroll region, ring advance plus backscroll growth otherwise. -/
def scroll_up (s : TextConsole) (n : Int) : TextConsole :=
  if s.sr_top ≠ 0 ∨ s.sr_bottom ≠ s.height - 1 then
    if n ≥ s.sr_bottom - s.sr_top then
      clear s 0 s.sr_top s.width (s.sr_bottom - s.sr_top)
    else
      let s := scroll_text_cells s (s.sr_top + n) s.sr_top
        (s.sr_bottom - s.sr_top - n + 1)
      clear s 0 (s.sr_bottom - n + 1) s.width n
  else
    let yb := s.y_base + n
    let yb := if yb > s.total_height then yb - s.total_height else yb
    let bs := s.backscroll + n
    let bs := if bs > s.total_height - s.height then s.total_height - s.height
      else bs
    let s := { s with y_base := yb, backscroll := bs }
    clear s 0 (s.height - n) s.width n

/-- Line feed (console.c console_put_lf). -/
def console_put_lf (s : TextConsole) : TextConsole :=
  let s := scroll_to_base s
  let s := set_cursor s s.x (s.y + 1)
  if s.y > s.sr_bottom then scroll_up (set_cursor s s.x s.sr_bottom) 1 else s

/-- Carriage return (console.c console_put_cr). -/
def console_put_cr (s : TextConsole) : TextConsole :=
  set_cursor s 0 s.y

/-- Reverse index (console.c console_put_ri). -/
def console_put_ri (s : TextConsole) : TextConsole :=
  let s := set_cursor s s.x (s.y - 1)
  if s.y < s.sr_top then scroll_down (set_cursor s s.x s.sr_top) 1 else s

/-- Glyph emission (console.c do_putchar): with a wrap pending, mark the
cell written last, return the cursor to column 0 and line feed first;
then store the glyph and either advance or set the pending-wrap flag. -/
def do_putchar (s : TextConsole) (ch : Nat) : TextConsole :=
  let s := scroll_to_base s
  let s :=
    if s.wrapped then
      let i := screen_to_virtual s s.y * s.width + s.x
      let c := s.cells i
      let s := setCells s (fun j =>
        if j = i then { c with c_attrib := { c.c_attrib with wrapped := true } }
        else s.cells j)
      let s := set_cursor s 0 s.y
      console_put_lf s
    else s
  let i := screen_to_virtual s s.y * s.width + s.x
  let s := setCells s (fun j =>
    if j = i then
      { ch := ch, t_attrib := { s.t_attrib with used := true },
        c_attrib := s.c_attrib_default }
    else s.cells j)
  if s.x + 1 < s.width then set_cursor s (s.x + 1) s.y
  else if s.autowrap then { s with wrapped := true } else s

/-- CSI parameter accumulation (console.c handle_params).  Digits extend
the current slot only while fewer than MAX_ESC_PARAMS parameters are
open; a question mark sets the private flag; a semicolon closes the
current parameter; any other byte closes it and reports the sequence
finished (second component true). -/
def handle_params (s : TextConsole) (ch : Nat) : TextConsole × Bool :=
  if 48 ≤ ch ∧ ch ≤ 57 then
    let s :=
      if s.nb_esc_params < MAX_ESC_PARAMS then
        setParam s s.nb_esc_params
          (s.esc_params s.nb_esc_params * 10 + ((ch : Int) - 48))
      else s
    ({ s with has_esc_param := true }, false)
  else
    let s :=
      if s.has_esc_param then
        { s with nb_esc_params := s.nb_esc_params + 1, has_esc_param := false }
      else { s with has_esc_param := false }
    if ch = 63 then ({ s with has_qmark := true }, false)
    else if ch = 59 then (s, false)
    else (s, true)

/-- Parameter reset (console.c reset_params): clears the parameter slots,
the count and the private flag; has_esc_param is not reset here. -/
def reset_params (s : TextConsole) : TextConsole :=
  { s with esc_params := fun i => if i < MAX_ESC_PARAMS then 0 else s.esc_params i,
           nb_esc_params := 0, has_qmark := false }

/-- One SGR parameter applied to the current attributes (one arm of the
switch in console.c console_handle_escape). -/
def sgr_apply (s : TextConsole) (p : Int) : TextConsole :=
  if p = 0 then { s with t_attrib := s.t_attrib_default }
  else if p = 1 then { s with t_attrib := { s.t_attrib with bold := true } }
  else if p = 4 then { s with t_attrib := { s.t_attrib with uline := true } }
  else if p = 5 then { s with t_attrib := { s.t_attrib with blink := true } }
  else if p = 7 then { s with t_attrib := { s.t_attrib with invers := true } }
  else if p = 8 then { s with t_attrib := { s.t_attrib with unvisible := true } }
  else if p = 22 then { s with t_attrib := { s.t_attrib with bold := false } }
  else if p = 24 then { s with t_attrib := { s.t_attrib with uline := false } }
  else if p = 25 then { s with t_attrib := { s.t_attrib with blink := false } }
  else if p = 27 then { s with t_attrib := { s.t_attrib with invers := false } }
  else if p = 28 then { s with t_attrib := { s.t_attrib with unvisible := false } }
  else if 30 ≤ p ∧ p ≤ 37 then
    { s with t_attrib := { s.t_attrib with fgcol := (p - 30).toNat } }
  else if p = 38 then
    { s with t_attrib := { s.t_attrib with
        fgcol := s.t_attrib_default.fgcol, uline := true } }
  else if p = 39 then
    { s with t_attrib := { s.t_attrib with
        fgcol := s.t_attrib_default.fgcol, uline := false } }
  else if 40 ≤ p ∧ p ≤ 47 then
    { s with t_attrib := { s.t_attrib with bgcol := (p - 40).toNat } }
  else if p = 49 then
    { s with t_attrib := { s.t_attrib with bgcol := s.t_attrib_default.bgcol } }
  else s

/-- Loop of console.c console_handle_escape over the accumulated
parameters.  The remaining count n stands for the loop condition
i < nb_esc_params, which the body never changes. -/
def sgr_go (s : TextConsole) (i n : Nat) : TextConsole :=
  match n with
  | 0 => s
  | n + 1 => sgr_go (sgr_apply s (s.esc_params i)) (i + 1) n

/-- SGR dispatch (console.c console_handle_escape): with no parameters
all attributes reset to the default. -/
def console_handle_escape (s : TextConsole) : TextConsole :=
  if s.nb_esc_params = 0 then { s with t_attrib := s.t_attrib_default }
  else sgr_go s 0 s.nb_esc_params

/-- Default-to-one of the first parameter, shared by many CSI cases: the
slot itself is overwritten with 1 when it is 0, and the count selects
between the slot and the constant 1. -/
def defparam1 (s : TextConsole) : TextConsole × Int :=
  let s := if s.esc_params 0 = 0 then setParam s 0 1 else s
  (s, if s.nb_esc_params ≠ 0 then s.esc_params 0 else 1)

/-- Delete-character (console.c console_dch): shifts the row left by a
from the cursor, stopping a cells early (the known source quirk), then
rewrites the single following cell: blanked on the last line, copied
from a cells further otherwise. -/
def console_dch (s : TextConsole) : TextConsole :=
  let s := if s.esc_params 0 = 0 then setParam s 0 1 else s
  let a := if s.nb_esc_params ≠ 0 then s.esc_params 0 else 1
  let row := screen_to_virtual s s.y
  let s0 := s
  let s := setCells s (fun j =>
    if row * s.width + s.x ≤ j ∧ j < row * s.width + (s.width - a) then
      { ch := (s0.cells (j + a)).ch, t_attrib := (s0.cells (j + a)).t_attrib,
        c_attrib := (s0.cells j).c_attrib }
    else s0.cells j)
  let pos := row * s.width + s.x + max 0 (s.width - a - s.x)
  if s.y = s.height - 1 then
    setCells s (fun j =>
      if j = pos then
        { ch := 32, t_attrib := s.t_attrib_default, c_attrib := s.c_attrib_default }
      else s.cells j)
  else
    setCells s (fun j =>
      if j = pos then
        { ch := (s.cells (pos + a)).ch, t_attrib := (s.cells (pos + a)).t_attrib,
          c_attrib := (s.cells j).c_attrib }
      else s.cells j)

/-- Zero test on a selection record (macro is_selection_zero). -/
def is_selection_zero (s : TextConsole) (b : Bool) : Bool :=
  s.selections b = { startx := 0, starty := 0, endx := 0, endy := 0 }

/-- Walk of console.c highlight over the selected cells in virtual
coordinates.  The fuel argument bounds the walk by the cell count plus
one row, which covers every terminating execution of the C loop. -/
def highlight_go (fuel : Nat) (s : TextConsole) (from_x from_y to_x to_y : Int)
    (hl : Bool) : TextConsole :=
  match fuel with
  | 0 => s
  | fuel + 1 =>
    if from_y = to_y ∧ from_x = to_x then s
    else
      let i := from_y * s.width + from_x
      let c := s.cells i
      let s :=
        if c.c_attrib.highlit ≠ hl ∧ c.t_attrib.used then
          setCells s (fun j =>
            if j = i then { c with c_attrib := { c.c_attrib with highlit := hl } }
            else s.cells j)
        else s
      let fx := from_x + 1
      if fx ≥ s.width then
        highlight_go fuel s 0 (Int.tmod (from_y + 1) s.total_height) to_x to_y hl
      else highlight_go fuel s fx from_y to_x to_y hl

/-- Selection highlighting (console.c highlight): endpoints are swapped
when the projection onto the screen runs backwards. -/
def highlight (s : TextConsole) (from_x from_y to_x to_y : Int) (hl : Bool) :
    TextConsole :=
  if from_y = to_y ∧ to_x = from_x then s
  else
    let sc_fy := virtual_to_screen s from_y
    let sc_ty := virtual_to_screen s to_y
    let doswap := (sc_ty < sc_fy ∨ (sc_ty = sc_fy ∧ to_x < from_x)) ∧
      (sc_fy.natAbs : Int) - (sc_ty.natAbs : Int) < s.height
    let fx := if doswap then to_x else from_x
    let fy := if doswap then to_y else from_y
    let tx := if doswap then from_x else to_x
    let ty := if doswap then from_y else to_y
    highlight_go ((s.total_height * s.width).toNat + s.width.toNat + 1)
      s fx fy tx ty hl

/-- Low 16 bits of a translation entry: the Unicode value (macro UTFVAL). -/
def UTFVAL (cm : Nat → Nat → Nat) (curf b : Nat) : Nat :=
  cm curf b &&& 0xffff

/-- Binary-search loop of console.c get_glyphcode.  The C variables are
low and high; here high1 stands for high + 1 so that the assignment
high = mid - 1 stays inside Nat, and o is the result accumulator that
the source initialises to 0 and returns unchanged on a miss.  The fuel
n only bounds the recursion; every iteration shrinks high1 - low, so
any fuel of at least high1 - low reproduces the C loop exactly. -/
def glyph_search_go (cm : Nat → Nat → Nat) (curf chart : Nat)
    (low high1 o : Nat) (n : Nat) : Nat :=
  match n with
  | 0 => o
  | n + 1 =>
    if low < high1 then
      let mid := (low + (high1 - 1)) / 2
      if UTFVAL cm curf mid > chart then
        glyph_search_go cm curf chart low mid o n
      else if UTFVAL cm curf mid < chart then
        glyph_search_go cm curf chart (mid + 1) high1 o n
      else (cm curf mid >>> 16) &&& 0xff
    else o

/-- Binary search of console.c get_glyphcode over the window low to
high1 - 1, with fuel covering the whole window. -/
def glyph_search (cm : Nat → Nat → Nat) (curf chart low high1 o : Nat) : Nat :=
  glyph_search_go cm curf chart low high1 o (high1 - low)

/-- Codepoint-to-glyph translation (console.c get_glyphcode): Latin-1
passes small codepoints through unchanged; otherwise a binary search of
the 256-entry table of the chosen codec, sorted by Unicode value, with
result 0 on a miss. -/
def get_glyphcode (cm : Nat → Nat → Nat) (s : TextConsole) (chart : Nat) : Nat :=
  let curf := s.t_attrib.codec s.t_attrib.font
  if curf = MAPLAT1 then
    if chart < 256 then chart
    else glyph_search cm MAPGRAF chart 0 256 0
  else glyph_search cm curf chart 0 256 0

/-- Character-input path of the NORM state (the default arm of the
switch in console.c console_putchar): UTF-8 sequence assembly, codepage
translation on completion, direct emission otherwise. -/
def norm_input (cm : Nat → Nat → Nat) (s : TextConsole) (ch : Nat) : TextConsole :=
  if s.t_attrib.utf then
    if s.unicodeIndex > 0 then
      let s := if ch &&& 0xc0 ≠ 0x80 then do_putchar s ch else s
      let s := { s with
        unicodeData := fun i => if i = s.unicodeIndex then ch else s.unicodeData i,
        unicodeIndex := s.unicodeIndex + 1 }
      if s.unicodeIndex < s.unicodeLength then s
      else
        let chv : Nat :=
          if s.unicodeLength = 2 then
            ((s.unicodeData 0 &&& 0x1f) <<< 6) ||| (s.unicodeData 1 &&& 0x3f)
          else if s.unicodeLength = 3 then
            ((s.unicodeData 0 &&& 0x0f) <<< 12) |||
              ((s.unicodeData 1 &&& 0x3f) <<< 6) ||| (s.unicodeData 2 &&& 0x3f)
          else if s.unicodeLength = 4 then
            ((s.unicodeData 0 &&& 0x07) <<< 18) |||
              ((s.unicodeData 1 &&& 0x3f) <<< 12) |||
              ((s.unicodeData 2 &&& 0x3f) <<< 6) ||| (s.unicodeData 3 &&& 0x3f)
          else ch
        let g := get_glyphcode cm s chv
        do_putchar { s with unicodeIndex := 0 } g
    else
      if ch &&& 0xe0 = 0xc0 then
        { s with unicodeData := fun i => if i = 0 then ch else s.unicodeData i,
                 unicodeIndex := 1, unicodeLength := 2 }
      else if ch &&& 0xf0 = 0xe0 then
        { s with unicodeData := fun i => if i = 0 then ch else s.unicodeData i,
                 unicodeIndex := 1, unicodeLength := 3 }
      else if ch &&& 0xf8 = 0xf0 then
        { s with unicodeData := fun i => if i = 0 then ch else s.unicodeData i,
                 unicodeIndex := 1, unicodeLength := 4 }
      else do_putchar s ch
  else do_putchar s ch

/-- Private-mode loop of CSI h / CSI l (console.c console_putchar,
cases h and l with a leading question mark).  The remaining count n
stands for the loop condition i < nb_esc_params, which the body never
changes. -/
def smrm_priv_go (a : Bool) (s : TextConsole) (i n : Nat) : TextConsole :=
  match n with
  | 0 => s
  | n + 1 =>
    let p := s.esc_params i
    let s :=
      if p = 1 then { s with cursorkey_mode := a }
      else if p = 2 then { s with t_attrib := { s.t_attrib with utf := !a } }
      else if p = 6 then { s with origin_mode := a }
      else if p = 7 then { s with autowrap := a }
      else if p = 25 then { s with cursor_visible := a }
      else s
    smrm_priv_go a s (i + 1) n

/-- Scroll-region case of the CSI dispatch (console.c console_putchar,
case r, also reached by fallthrough from case n): with two parameters
the clip_xy macro clamps sr_top with clip_x, that is against the width,
and sr_bottom with clip_y; the cursor then homes to column 0 of
sr_top. -/
def csi_r (s : TextConsole) : TextConsole :=
  let s :=
    if s.nb_esc_params = 0 then { s with sr_top := 0, sr_bottom := s.height - 1 }
    else if s.nb_esc_params = 2 then
      let s := { s with sr_top := s.esc_params 0 - 1,
                        sr_bottom := s.esc_params 1 - 1 }
      { s with sr_top := clip_x_val s s.sr_top,
               sr_bottom := clip_y_val s s.sr_bottom }
    else s
  set_cursor s 0 s.sr_top

/-- Final-byte dispatch of the CSI state (the switch in console.c
console_putchar, state TTY_STATE_CSI, after handle_params reports the
sequence finished).  Reply-only cases (c, n before its fallthrough, x)
leave the state unchanged. -/
def csi_dispatch (s : TextConsole) (ch : Nat) : TextConsole :=
  if ch = 64 then
    let y1 := screen_to_virtual s s.y
    let p := defparam1 s
    let s := p.1
    let a := p.2
    let s0 := s
    let s := setCells s (fun j =>
      if y1 * s.width + s.x + a ≤ j ∧ j < y1 * s.width + s.width then
        { ch := (s0.cells (j - a)).ch, t_attrib := (s0.cells (j - a)).t_attrib,
          c_attrib := (s0.cells j).c_attrib }
      else s0.cells j)
    clear_line s s.y s.x (s.x + a)
  else if ch = 65 then
    let p := defparam1 s
    let s := set_cursor p.1 p.1.x (p.1.y - p.2)
    if s.y < s.sr_top then set_cursor s s.x s.sr_top else s
  else if ch = 66 then
    let p := defparam1 s
    let s := set_cursor p.1 p.1.x (p.1.y + p.2)
    if s.y > s.sr_bottom then set_cursor s s.x s.sr_bottom else s
  else if ch = 97 ∨ ch = 67 then
    let p := defparam1 s
    let s := set_cursor p.1 (p.1.x + p.2) p.1.y
    if s.x ≥ s.width then set_cursor s (s.width - 1) s.y else s
  else if ch = 68 then
    let p := defparam1 s
    let s := set_cursor p.1 (p.1.x - p.2) p.1.y
    if s.x < 0 then set_cursor s 0 s.y else s
  else if ch = 69 then
    let p := defparam1 s
    let s := set_cursor p.1 0 (p.1.y + p.2)
    if s.y > s.sr_bottom then set_cursor s 0 s.sr_bottom else s
  else if ch = 70 then
    let p := defparam1 s
    let s := set_cursor p.1 0 (p.1.y - p.2)
    if s.y < s.sr_top then set_cursor s 0 s.sr_top else s
  else if ch = 96 ∨ ch = 71 then
    if s.nb_esc_params = 1 then
      let s := set_cursor s (s.esc_params 0) s.y
      { s with x := clip_x_val s s.x }
    else s
  else if ch = 102 ∨ ch = 72 then
    let x_ := if s.nb_esc_params > 1 then s.esc_params 1 - 1 else 0
    let y_ := if s.nb_esc_params > 0 then s.esc_params 0 - 1 else 0
    let s := set_cursor s x_ ((if s.origin_mode then s.sr_top else 0) + y_)
    let s := { s with x := clip_x_val s s.x }
    { s with y := clip_y_val s s.y }
  else if ch = 74 then
    let s := if s.nb_esc_params = 0 then setParam s 0 2 else s
    if s.esc_params 0 = 0 then clear s s.x s.y s.width (s.sr_bottom - s.y + 1)
    else if s.esc_params 0 = 1 then
      clear s 0 s.sr_top (s.x + 1) (s.y - s.sr_top + 1)
    else if s.esc_params 0 = 2 then
      clear s 0 s.sr_top s.width (s.sr_bottom - s.sr_top + 1)
    else s
  else if ch = 75 then
    let s :=
      if s.nb_esc_params = 0 then { setParam s 0 0 with nb_esc_params := 1 }
      else s
    if s.nb_esc_params = 1 then
      let x := if s.esc_params 0 = 0 then s.x else 0
      let x1 := if s.esc_params 0 = 1 then s.x + 1 else s.width
      clear s x s.y x1 1
    else s
  else if ch = 76 then
    let s := if s.esc_params 0 = 0 then setParam s 0 1 else s
    scroll_down s (s.esc_params 0)
  else if ch = 77 then
    let s := if s.esc_params 0 = 0 then setParam s 0 1 else s
    scroll_up s (s.esc_params 0)
  else if ch = 80 then console_dch s
  else if ch = 88 then
    let s := if s.esc_params 0 = 0 then setParam s 0 1 else s
    clear s s.x s.y (s.x + s.esc_params 0) 1
  else if ch = 99 then s
  else if ch = 100 then
    if s.nb_esc_params = 1 then set_cursor s s.x (s.esc_params 0 - 1) else s
  else if ch = 101 then
    if s.nb_esc_params = 1 then
      let s := if s.esc_params 0 = 0 then setParam s 0 1 else s
      let s := set_cursor s s.x (s.y + s.esc_params 0)
      if s.y > s.sr_bottom then set_cursor s s.x s.sr_bottom else s
    else s
  else if ch = 109 then console_handle_escape s
  else if ch = 104 ∨ ch = 108 then
    let a := ch = 104
    if s.has_qmark then smrm_priv_go a s 0 s.nb_esc_params
    else if s.nb_esc_params ≥ 1 then
      if s.esc_params 0 = 4 then { s with insert_mode := a } else s
    else s
  else if ch = 110 then csi_r s
  else if ch = 114 then csi_r s
  else if ch = 115 then { s with saved_x := s.x, saved_y := s.y }
  else if ch = 117 then set_cursor s s.saved_x s.saved_y
  else s

/-- Byte-oriented state machine (console.c console_putchar). -/
def console_putchar (cm : Nat → Nat → Nat) (s : TextConsole) (ch : Nat) :
    TextConsole :=
  match s.state with
  | TTYState.norm =>
    if ch = 7 then s
    else if ch = 8 then (if s.x > 0 then set_cursor s (s.x - 1) s.y else s)
    else if ch = 9 then
      (if s.x + (8 - Int.tmod s.x 8) > s.width then
        console_put_lf (set_cursor s 0 s.y)
      else set_cursor s (s.x + (8 - Int.tmod s.x 8)) s.y)
    else if ch = 10 ∨ ch = 11 ∨ ch = 12 then console_put_lf s
    else if ch = 13 then set_cursor s 0 s.y
    else if ch = 14 then { s with t_attrib := { s.t_attrib with font := 1 } }
    else if ch = 15 then { s with t_attrib := { s.t_attrib with font := 0 } }
    else if ch = 24 ∨ ch = 26 then s
    else if ch = 27 then { reset_params s with state := TTYState.esc }
    else if ch = 127 then s
    else if ch = 155 then { reset_params s with state := TTYState.csi }
    else norm_input cm s ch
  | TTYState.esc =>
    let s := { s with state := TTYState.norm }
    if ch = 99 then
      let s := set_cursor s 0 0
      let s := { s with nb_esc_params := 0, t_attrib := s.t_attrib_default }
      let s :=
        if ¬ is_selection_zero s true then
          highlight s (s.selections true).startx (s.selections true).starty
            (s.selections true).endx (s.selections true).endy false
        else s
      let s := { s with selections := fun b =>
        if b = true then { startx := 0, starty := 0, endx := 0, endy := 0 }
        else s.selections b }
      clear s s.x s.y s.width s.height
    else if ch = 68 then console_put_lf s
    else if ch = 90 then s
    else if ch = 37 then { s with state := TTYState.percent }
    else if ch = 40 then { s with state := TTYState.g0 }
    else if ch = 41 then { s with state := TTYState.g1 }
    else if ch = 91 then { reset_params s with state := TTYState.csi }
    else if ch = 69 then console_put_cr (console_put_lf s)
    else if ch = 77 then console_put_ri s
    else if ch = 55 then
      { s with saved_x := s.x, saved_y := s.y, saved_t_attrib := s.t_attrib }
    else if ch = 56 then
      { set_cursor s s.saved_x s.saved_y with t_attrib := s.saved_t_attrib }
    else s
  | TTYState.csi =>
    let r := handle_params s ch
    if r.2 then csi_dispatch { r.1 with state := TTYState.norm } ch else r.1
  | TTYState.g0 | TTYState.g1 =>
    let i := if s.state = TTYState.g1 then 0 else 1
    let s :=
      if ch = 48 then { s with t_attrib := s.t_attrib.setCodec i MAPGRAF }
      else if ch = 66 then { s with t_attrib := s.t_attrib.setCodec i MAPLAT1 }
      else if ch = 85 then { s with t_attrib := s.t_attrib.setCodec i MAPIBMPC }
      else if ch = 75 then { s with t_attrib := s.t_attrib.setCodec i MAPUSER }
      else s
    { s with state := TTYState.norm }
  | TTYState.percent =>
    let s :=
      if ch = 64 then { s with t_attrib := { s.t_attrib with utf := false } }
      else if ch = 71 ∨ ch = 56 then
        { s with t_attrib := { s.t_attrib with utf := true } }
      else s
    { s with state := TTYState.norm }

/-- Byte-stream entry point (console.c console_puts): the cursor is
hidden during the walk and shown again afterwards. -/
def console_puts (cm : Nat → Nat → Nat) (s : TextConsole) (buf : List Nat) :
    TextConsole :=
  let s := { s with cursor_visible := false }
  let s := buf.foldl (console_putchar cm) s
  { s with cursor_visible := true }

/-- Default text attributes installed by console.c text_console_init:
white on black, UTF-8 on, G0 mapped to Latin-1 and G1 to graphics. -/
def default_t_attrib : TextAttributes :=
  { fgcol := 7, bgcol := 0, bold := false, uline := false, blink := false,
    invers := false, unvisible := false, used := false, utf := true,
    font := 0, codec0 := MAPLAT1, codec1 := MAPGRAF }

/-- All-zero text attributes left by the initial memset. -/
def zero_t_attrib : TextAttributes :=
  { fgcol := 0, bgcol := 0, bold := false, uline := false, blink := false,
    invers := false, unvisible := false, used := false, utf := false,
    font := 0, codec0 := 0, codec1 := 0 }

/-- Fresh console of the given pixel geometry: the combined effect of
new_console, text_console_init and the initial text_console_resize of
console.c.  The resize computes the cell geometry from the 8 by 16 font
and blanks every cell with the default attributes. -/
def text_console_init (gw gh : Int) : TextConsole :=
  let w := Int.tdiv gw 8
  let h := Int.tdiv gh 16
  { g_width := gw, g_height := gh, width := w, height := h,
    backscroll := 0, total_height := DEFAULT_BACKSCROLL,
    x := 0, y := 0, saved_x := 0, saved_y := 0,
    cursor_visible := false,
    y_base := Int.tdiv DEFAULT_BACKSCROLL 3, y_scroll := 0,
    sr_top := 0, sr_bottom := h - 1,
    autowrap := true, wrapped := false,
    insert_mode := false, cursorkey_mode := false, origin_mode := false,
    t_attrib_default := default_t_attrib, t_attrib := default_t_attrib,
    saved_t_attrib := zero_t_attrib,
    cells := fun _ =>
      { ch := 32, t_attrib := default_t_attrib,
        c_attrib := { highlit := false, wrapped := false } },
    c_attrib_default := { highlit := false, wrapped := false },
    state := TTYState.norm,
    esc_params := fun _ => 0, nb_esc_params := 0,
    has_esc_param := false, has_qmark := false,
    selections := fun _ => { startx := 0, starty := 0, endx := 0, endy := 0 },
    selecting := false, mouse_x := -1, mouse_y := -1,
    unicodeIndex := 0, unicodeData := fun _ => 0, unicodeLength := 0 }

/-- Demonstration translation table for concrete runs: entry j carries
Unicode value j in the low half and glyph j in the high half, which is
sorted by Unicode value as prepare_console_maps guarantees for the real
tables. -/
def cmDemo : Nat → Nat → Nat := fun _ j => (j <<< 16) ||| j

/-- Parameter-machinery view of the CSI state: the first components of
successive handle_params calls, which is how console_putchar evolves
the state while the final byte has not arrived. -/
def feed_params (s : TextConsole) (bs : List Nat) : TextConsole :=
  bs.foldl (fun st c => (handle_params st c).1) s

/-- Spec-side decimal value of a digit list, most significant first. -/
def decval (ds : List Nat) : Int :=
  ds.foldl (fun a d => a * 10 + (d : Int)) 0

/-- Spec-side byte stream of a CSI parameter list: the decimal digits of
each parameter, parameters separated by semicolons. -/
def params_bytes : List (List Nat) → List Nat
  | [] => []
  | [ds] => ds.map (fun d => d + 48)
  | ds :: ps => ds.map (fun d => d + 48) ++ 59 :: params_bytes ps

/-- Drain loop of console.c write_or_chunk over the queued chunks.  A
chunk is its remaining byte list; the oracle gives the byte count each
write call accepts (the no-error case of the claim).  Returns the bytes
written, the remaining queue, the unconsumed oracle and the value the C
variable done has when the loop exits (none when no write happened). -/
def write_or_chunk_drain (oracle : List Nat) (chunks : List (List Nat)) :
    List Nat × List (List Nat) × List Nat × Option Nat :=
  match chunks with
  | [] => ([], [], oracle, none)
  | c :: rest =>
    let w := min (oracle.headD 0) c.length
    if w = c.length then
      let r := write_or_chunk_drain oracle.tail rest
      (c.take w ++ r.1, r.2.1, r.2.2.1,
        some (match r.2.2.2 with | some d => d | none => w))
    else (c.take w, c.drop w :: rest, oracle.tail, some w)

/-- Host write path (console.c write_or_chunk): drain the queue head
first, then try the new payload in place when the queue emptied, else
append a chunk built from buf offset by the last drain count, which is
the source quirk under scrutiny.  Returns the bytes that reached the
descriptor and the final queue. -/
def write_or_chunk (oracle : List Nat) (chunks : List (List Nat))
    (buf : List Nat) : List Nat × List (List Nat) :=
  let r := write_or_chunk_drain oracle chunks
  let written := r.1
  let q := r.2.1
  let oracle := r.2.2.1
  if q = [] then
    let done := min (oracle.headD 0) buf.length
    if done = buf.length then (written ++ buf, [])
    else (written ++ buf.take done, [buf.drop done])
  else
    let done := (r.2.2.2).getD 0
    (written, q ++ [buf.drop done])

end Console

namespace Vnc

/-- Refresh-interval constants of src/libvnc/textterm.c. -/
def VNC_REFRESH_INTERVAL_BASE : Int := 30

/-- Per-idle-tick interval increment. -/
def VNC_REFRESH_INTERVAL_INC : Int := 50

/-- Interval ceiling. -/
def VNC_REFRESH_INTERVAL_MAX : Int := 2000

/-- Idle span after which a null update is forced. -/
def VNC_MAX_UPDATE_INTERVAL : Int := 5000

/-- Width of a dirty word (DIRTY_PIXEL_BITS). -/
def DIRTY_PIXEL_BITS : Nat := 64

/-- Pending-message summary of a client (struct vnc_pending_messages).
The explicit rectangle queue holds x, y, w, h quadruples of uint16
values. -/
structure VncPendingMessages where
  vpm_resize : Bool
  vpm_bell : Nat
  vpm_null_update : Bool
  vpm_server_cut_text : Bool
  vpm_cursor_update : Bool
  vpm_region_updates : List (Nat × Nat × Nat × Nat)
  deriving DecidableEq

/-- Per-client server state (struct VncClientState), restricted to the
fields the embedded operations touch.  The output buffer is the byte
list appended so far; update_row maps a row index to its 64-bit dirty
word. -/
structure VncClientState where
  csock : Int
  isvncviewer : Bool
  output : List Nat
  has_resize : Bool
  has_hextile : Bool
  has_pointer_type_change : Bool
  has_cursor_encoding : Bool
  absolute : Int
  last_x : Int
  last_y : Int
  pix_bpp : Nat
  vpm : VncPendingMessages
  update_row : Nat → Nat

/-- Shared server state (struct VncState), restricted to the fields the
embedded operations touch.  The client slots are options in a list of
length MAX_CLIENTS. -/
structure VncState where
  title : List Nat
  timer : Bool
  timer_interval : Int
  last_update_time : Int
  ds_width : Nat
  ds_height : Nat
  depth : Nat
  dirty_pixel_shift : Nat
  has_update : Bool
  visible_x : Nat
  visible_y : Nat
  visible_w : Nat
  visible_h : Nat
  send_resize : Bool
  vcs : List (Option VncClientState)

/-- Activity test (macro VCS_ACTIVE): the slot is filled and the client
completed its pixel-format setup. -/
def VCS_ACTIVE (c : Option VncClientState) : Bool :=
  match c with
  | none => false
  | some vcs => vcs.pix_bpp ≠ 0

/-- Explicit rectangle enqueue (textterm.c send_framebuffer_update): the
coordinates are stored in uint16 fields. -/
def send_framebuffer_update (vcs : VncClientState) (x y w h : Nat) :
    VncClientState :=
  { vcs with vpm := { vcs.vpm with vpm_region_updates :=
      vcs.vpm.vpm_region_updates ++
        [(x % 65536, y % 65536, w % 65536, h % 65536)] } }

/-- Rectangle enqueue to every active client
(textterm.c send_framebuffer_update_all). -/
def send_framebuffer_update_all (vs : VncState) (x y w h : Nat) : VncState :=
  { vs with vcs := vs.vcs.map (fun c =>
      match c with
      | none => none
      | some vcs =>
        if vcs.pix_bpp ≠ 0 then some (send_framebuffer_update vcs x y w h)
        else some vcs) }

/-- Resize notification (textterm.c vnc_send_resize): a no-op unless
resize propagation is enabled. -/
def vnc_send_resize (vs : VncState) : VncState :=
  if vs.send_resize then
    { vs with vcs := vs.vcs.map (fun c =>
        match c with
        | none => none
        | some vcs =>
          if vcs.pix_bpp ≠ 0 then
            some { vcs with vpm := { vcs.vpm with vpm_resize := true } }
          else some vcs) }
  else vs

/-- Timer creation (textterm.c vnc_timer_init): installs the timer and
the base interval once. -/
def vnc_timer_init (vs : VncState) : VncState :=
  if vs.timer = false then
    { vs with timer := true, timer_interval := VNC_REFRESH_INTERVAL_BASE }
  else vs

/-- Refresh tick (textterm.c _vnc_update_client).  A tick with pending
updates and a visible region halves the interval with the base as
floor; otherwise the interval grows by the increment, saturating at the
ceiling, and once saturated a tick at least VNC_MAX_UPDATE_INTERVAL
after the last update time queues a one-by-one rectangle at the origin
to every active client. -/
def _vnc_update_client (vs : VncState) (now : Int) : VncState :=
  if vs.has_update ∧ vs.visible_y < vs.ds_height ∧ vs.visible_x < vs.ds_width then
    let vs := { vs with has_update := false }
    let vs := vnc_send_resize vs
    let vs := { vs with last_update_time := now }
    let ti := Int.tdiv vs.timer_interval 2
    { vs with timer_interval :=
        if ti < VNC_REFRESH_INTERVAL_BASE then VNC_REFRESH_INTERVAL_BASE else ti }
  else
    let ti := vs.timer_interval + VNC_REFRESH_INTERVAL_INC
    if ti > VNC_REFRESH_INTERVAL_MAX then
      let vs := { vs with timer_interval := VNC_REFRESH_INTERVAL_MAX }
      if now - vs.last_update_time ≥ VNC_MAX_UPDATE_INTERVAL then
        let vs := vnc_send_resize vs
        let vs := send_framebuffer_update_all vs 0 0 1 1
        { vs with last_update_time := now }
      else vs
    else { vs with timer_interval := ti }

/-- Down-rounding pixel-to-dirty-bit conversion (macro X2DP_DOWN). -/
def X2DP_DOWN (vs : VncState) (x : Nat) : Nat :=
  x >>> vs.dirty_pixel_shift

/-- Up-rounding pixel-to-dirty-bit conversion (macro X2DP_UP). -/
def X2DP_UP (vs : VncState) (x : Nat) : Nat :=
  (x + (1 <<< vs.dirty_pixel_shift) - 1) >>> vs.dirty_pixel_shift

/-- Dirty-bit-to-pixel conversion (macro DP2X). -/
def DP2X (vs : VncState) (x : Nat) : Nat :=
  x <<< vs.dirty_pixel_shift

/-- Complement of a mask inside a 64-bit word. -/
def NOT64 (mask : Nat) : Nat :=
  (2 ^ 64 - 1) ^^^ mask

/-- Loop of textterm.c find_update_height with the running height h:
while the next row inside the window still has the mask bit set, clear
it there and extend the run.  The count n equals maxy - (y + h) at
every call, so n reaching 0 is exactly the loop condition
y + h < maxy turning false. -/
def find_update_height_go (y : Nat) (mask : Nat) (rows : Nat → Nat)
    (h n : Nat) : Nat × (Nat → Nat) :=
  match n with
  | 0 => (h, rows)
  | n + 1 =>
    if rows (y + h) &&& mask ≠ 0 then
      find_update_height_go y mask
        (fun r => if r = y + h then rows r &&& NOT64 mask else rows r)
        (h + 1) n
    else (h, rows)

/-- Maximal-run scan (textterm.c find_update_height). -/
def find_update_height (rows : Nat → Nat) (y maxy : Nat) (mask : Nat) :
    Nat × (Nat → Nat) :=
  find_update_height_go y mask rows 1 (maxy - (y + 1))

/-- Inner loop of the dirty drain of textterm.c vnc_process_messages:
walk the dirty bits of row y from x up, emitting one column stripe per
set bit with the height returned by find_update_height.  The count n
equals xu - x at every call, so n reaching 0 is exactly the loop
condition x < xu turning false. -/
def drain_row_bits (shift : Nat) (y maxy : Nat) (rows : Nat → Nat)
    (x : Nat) (n : Nat) : List (Nat × Nat × Nat × Nat) × (Nat → Nat) :=
  match n with
  | 0 => ([], rows)
  | n + 1 =>
    let mask := 1 <<< x
    if rows y &&& mask ≠ 0 then
      let r := find_update_height rows y maxy mask
      let rest := drain_row_bits shift y maxy r.2 (x + 1) n
      if r.1 ≠ 0 then
        ((x <<< shift, y, 1 <<< shift, r.1) :: rest.1, rest.2)
      else rest
    else drain_row_bits shift y maxy rows (x + 1) n

/-- Outer loop of the dirty drain of textterm.c vnc_process_messages: a
row is zeroed wholesale after its bits are walked.  The count n equals
maxy - y at every call, so n reaching 0 is exactly the loop condition
y < maxy turning false. -/
def drain_rows (shift : Nat) (maxy : Nat) (xd xu : Nat) (rows : Nat → Nat)
    (y : Nat) (n : Nat) : List (Nat × Nat × Nat × Nat) × (Nat → Nat) :=
  match n with
  | 0 => ([], rows)
  | n + 1 =>
    let r := drain_row_bits shift y maxy rows xd (xu - xd)
    let rows := fun i => if i = y then 0 else r.2 i
    let rest := drain_rows shift maxy xd xu rows (y + 1) n
    (r.1 ++ rest.1, rest.2)

/-- Dirty-row drain of textterm.c vnc_process_messages (the loop over
the visible rows): produces the queued column-stripe rectangles in
order and the resulting dirty bitmap. -/
def vnc_process_messages_drain (vs : VncState) (rows : Nat → Nat) :
    List (Nat × Nat × Nat × Nat) × (Nat → Nat) :=
  let maxy := min (vs.visible_y + vs.visible_h) vs.ds_height
  let maxx := min (vs.visible_x + vs.visible_w) vs.ds_width
  drain_rows vs.dirty_pixel_shift maxy (X2DP_DOWN vs vs.visible_x)
    (X2DP_UP vs maxx) rows vs.visible_y (maxy - vs.visible_y)

end Vnc

namespace Vnc

/-- Big-endian byte emission of a uint32 (textterm.c vnc_write_u32),
expressed as the bytes appended to the output buffer. -/
def bytes_u32 (v : Nat) : List Nat :=
  let v := v % 2 ^ 32
  [(v >>> 24) &&& 0xFF, (v >>> 16) &&& 0xFF, (v >>> 8) &&& 0xFF, v &&& 0xFF]

/-- Big-endian byte emission of a uint16 (textterm.c vnc_write_u16). -/
def bytes_u16 (v : Nat) : List Nat :=
  let v := v % 2 ^ 16
  [(v >>> 8) &&& 0xFF, v &&& 0xFF]

/-- Byte emission of a uint8 (textterm.c vnc_write_u8). -/
def bytes_u8 (v : Nat) : List Nat :=
  [v % 2 ^ 8]

/-- Big-endian byte emission of an int32 (textterm.c vnc_write_s32
reinterprets the value as a uint32 bit pattern). -/
def bytes_s32 (v : Int) : List Nat :=
  bytes_u32 (v.emod (2 ^ 32)).toNat

/-- Byte append to a client's output buffer (textterm.c vnc_write). -/
def vnc_write (vcs : VncClientState) (bs : List Nat) : VncClientState :=
  { vcs with output := vcs.output ++ bs }

/-- Rectangle header emission (textterm.c vnc_framebuffer_update). -/
def vnc_framebuffer_update (vcs : VncClientState) (x y w h : Nat)
    (encoding : Int) : VncClientState :=
  vnc_write vcs (bytes_u16 x ++ bytes_u16 y ++ bytes_u16 w ++ bytes_u16 h ++
    bytes_s32 encoding)

/-- Pointer-mode notification (textterm.c check_pointer_type_change):
emits a pointer-type-change pseudo rectangle when the capability is on
and the mode flips, and always records the new mode.  The C passes the
absolute flag in the x coordinate of the rectangle. -/
def check_pointer_type_change (vs : VncState) (vcs : VncClientState)
    (absolute : Int) : VncClientState :=
  let vcs :=
    if vcs.has_pointer_type_change ∧ vcs.absolute ≠ absolute then
      let vcs := vnc_write vcs (bytes_u8 0 ++ bytes_u8 0 ++ bytes_u16 1)
      vnc_framebuffer_update vcs (absolute.emod (2 ^ 16)).toNat 0
        vs.ds_width vs.ds_height (-257)
    else vcs
  { vcs with absolute := absolute }

/-- One encoding id applied to the capability flags (the switch of
textterm.c set_encodings). -/
def set_encodings_step (vcs : VncClientState) (e : Int) : VncClientState :=
  if e = 0 then { vcs with has_hextile := false }
  else if e = 5 then { vcs with has_hextile := true }
  else if e = -223 then { vcs with has_resize := true }
  else if e = -239 then { vcs with has_cursor_encoding := true }
  else if e = -254 then vcs
  else if e = -255 then { vcs with isvncviewer := true }
  else if e = -257 then { vcs with has_pointer_type_change := true }
  else vcs

/-- SetEncodings handler (textterm.c set_encodings): the four capability
flags are cleared, the absolute mode forced to -1, and the ids are then
processed from the last to the first, so the earliest list entry wins;
finally the pointer mode is reconciled with the host mouse mode.  The
mouseAbs argument stands for mouse_is_absolute of the display
collaborator. -/
def set_encodings (vs : VncState) (vcs : VncClientState)
    (encodings : List Int) (mouseAbs : Int) : VncClientState :=
  let vcs := { vcs with has_hextile := false, has_resize := false,
                        has_pointer_type_change := false,
                        has_cursor_encoding := false, absolute := -1 }
  let vcs := encodings.foldr (fun e c => set_encodings_step c e) vcs
  check_pointer_type_change vs vcs mouseAbs

/-- ServerInit transmission (textterm.c protocol_client_init): the bytes
appended to the client output are the framebuffer geometry, the
16-byte pixel format chosen by the internal depth, three padding
bytes, and the length-prefixed title.  The hostBE flag stands for the
WORDS_BIGENDIAN compile-time test. -/
def protocol_client_init (vs : VncState) (hostBE : Bool)
    (vcs : VncClientState) : VncClientState :=
  let vcs := vnc_write vcs (bytes_u16 vs.ds_width)
  let vcs := vnc_write vcs (bytes_u16 vs.ds_height)
  let vcs := vnc_write vcs (bytes_u8 (vs.depth * 8))
  let vcs := vnc_write vcs (bytes_u8 (vs.depth * 8))
  let vcs := vnc_write vcs (bytes_u8 (if hostBE then 1 else 0))
  let vcs := vnc_write vcs (bytes_u8 1)
  let vcs :=
    if vs.depth = 4 then
      vnc_write vcs (bytes_u16 0xFF ++ bytes_u16 0xFF ++ bytes_u16 0xFF ++
        bytes_u8 16 ++ bytes_u8 8 ++ bytes_u8 0)
    else if vs.depth = 2 then
      vnc_write vcs (bytes_u16 31 ++ bytes_u16 63 ++ bytes_u16 31 ++
        bytes_u8 11 ++ bytes_u8 5 ++ bytes_u8 0)
    else if vs.depth = 1 then
      vnc_write vcs (bytes_u16 7 ++ bytes_u16 7 ++ bytes_u16 3 ++
        bytes_u8 5 ++ bytes_u8 2 ++ bytes_u8 0)
    else vcs
  let vcs := vnc_write vcs [0, 0, 0]
  let vcs := vnc_write vcs (bytes_u32 vs.title.length)
  vnc_write vcs vs.title

/-- Spec-side characterisation used by the amended SetEncodings claim:
the first id among Raw (0) and Hextile (5) in client order, which
decides the hextile capability because the source iterates the list
backwards and the earliest entry wins. -/
def first_raw_or_hextile (l : List Int) : Option Int :=
  (l.filter (fun e => e == 0 || e == 5)).head?

/-- Empty pending-message record for concrete runs. -/
def demo_vpm : VncPendingMessages :=
  { vpm_resize := false, vpm_bell := 0, vpm_null_update := false,
    vpm_server_cut_text := false, vpm_cursor_update := false,
    vpm_region_updates := [] }

/-- Active client record for concrete runs. -/
def demo_client : VncClientState :=
  { csock := 5, isvncviewer := false, output := [],
    has_resize := false, has_hextile := false,
    has_pointer_type_change := false, has_cursor_encoding := false,
    absolute := 1, last_x := -1, last_y := -1, pix_bpp := 1,
    vpm := demo_vpm, update_row := fun _ => 0 }

/-- Server record for concrete runs: one active client on a 640 by 384
framebuffer of depth 1 with the dirty-pixel shift 4 of an 80-column
text screen. -/
def demo_server : VncState :=
  { title := [118, 116], timer := true, timer_interval := 100,
    last_update_time := 0, ds_width := 640, ds_height := 384, depth := 1,
    dirty_pixel_shift := 4, has_update := false, visible_x := 0,
    visible_y := 0, visible_w := 640, visible_h := 384,
    send_resize := false, vcs := [some demo_client] }

end Vnc

namespace Console

/-- Claim C8: ring coordinate round trip.  For every console state with a
positive ring size and every virtual line index y, mapping y to the
screen with virtual_to_screen after mapping it into the ring with
screen_to_virtual returns a line congruent to y modulo total_height. -/
theorem ring_round_trip (s : TextConsole) (h : 0 < s.total_height) (y : Int) :
    virtual_to_screen s (screen_to_virtual s y) % s.total_height
      = y % s.total_height := by
  unfold virtual_to_screen screen_to_virtual
  have hq := Int.tdiv_add_tmod (y + (s.y_base - s.y_scroll)) s.total_height
  set T := s.total_height with hT
  set d := s.y_base - s.y_scroll with hd
  set q := Int.tdiv (y + d) T with hqd
  set m := Int.tmod (y + d) T with hmd
  dsimp only
  split_ifs with h1 h2 h3
  · have he : m + T - d + T = y + T * (2 - q) := by linear_combination hq
    rw [he, Int.add_mul_emod_self_left]
  · have he : m + T - d = y + T * (1 - q) := by linear_combination hq
    rw [he, Int.add_mul_emod_self_left]
  · have he : m - d + T = y + T * (1 - q) := by linear_combination hq
    rw [he, Int.add_mul_emod_self_left]
  · have he : m - d = y + T * (0 - q) := by linear_combination hq
    rw [he, Int.add_mul_emod_self_left]

/-- Concrete instance of the ring round trip on a freshly initialised
640 by 384 console at virtual line 5. -/
theorem ring_round_trip_witness :
    0 < (text_console_init 640 384).total_height ∧
      virtual_to_screen (text_console_init 640 384)
          (screen_to_virtual (text_console_init 640 384) 5) %
          (text_console_init 640 384).total_height
        = 5 % (text_console_init 640 384).total_height :=
  ⟨by decide, ring_round_trip (text_console_init 640 384) (by decide) 5⟩

end Console

namespace Vnc

/-- Claim C6: ServerInit wire format.  For a server whose framebuffer is
640 by 384 at internal depth 1 byte per pixel, the ClientInit response
appends exactly u16 640, u16 384, u8 8, u8 8, the host byte-order flag,
u8 1, u16 7, u16 7, u16 3, u8 5, u8 2, u8 0, three zero pad bytes, the
big-endian u32 title length, and the title bytes, in that order. -/
theorem server_init_bytes (vs : VncState) (hostBE : Bool) (vcs : VncClientState)
    (hw : vs.ds_width = 640) (hh : vs.ds_height = 384) (hd : vs.depth = 1) :
    (protocol_client_init vs hostBE vcs).output
      = vcs.output ++
        ([2, 128] ++ [1, 128] ++ [8] ++ [8] ++ [if hostBE then 1 else 0] ++
          [1] ++ [0, 7] ++ [0, 7] ++ [0, 3] ++ [5] ++ [2] ++ [0] ++ [0, 0, 0]) ++
        bytes_u32 vs.title.length ++ vs.title := by
  simp [protocol_client_init, vnc_write, bytes_u16, bytes_u8, hw, hh, hd]
  cases hostBE <;> decide

/-- Concrete instance of the ServerInit format for a little-endian host
and a two-byte title. -/
theorem server_init_bytes_witness :
    (protocol_client_init
        { title := [118, 116], timer := true, timer_interval := 30,
          last_update_time := 0, ds_width := 640, ds_height := 384, depth := 1,
          dirty_pixel_shift := 4, has_update := false, visible_x := 0,
          visible_y := 0, visible_w := 640, visible_h := 384,
          send_resize := false, vcs := [] } false
        { csock := 5, isvncviewer := false, output := [],
          has_resize := false, has_hextile := false,
          has_pointer_type_change := false, has_cursor_encoding := false,
          absolute := 1, last_x := -1, last_y := -1, pix_bpp := 1,
          vpm := { vpm_resize := false, vpm_bell := 0, vpm_null_update := false,
                   vpm_server_cut_text := false, vpm_cursor_update := false,
                   vpm_region_updates := [] },
          update_row := fun _ => 0 }).output
      = [] ++
        ([2, 128] ++ [1, 128] ++ [8] ++ [8] ++ [if False then 1 else 0] ++
          [1] ++ [0, 7] ++ [0, 7] ++ [0, 3] ++ [5] ++ [2] ++ [0] ++ [0, 0, 0]) ++
        bytes_u32 ([118, 116] : List Nat).length ++ [118, 116] := by
  have h := server_init_bytes
    { title := [118, 116], timer := true, timer_interval := 30,
      last_update_time := 0, ds_width := 640, ds_height := 384, depth := 1,
      dirty_pixel_shift := 4, has_update := false, visible_x := 0,
      visible_y := 0, visible_w := 640, visible_h := 384,
      send_resize := false, vcs := [] } false
    { csock := 5, isvncviewer := false, output := [],
      has_resize := false, has_hextile := false,
      has_pointer_type_change := false, has_cursor_encoding := false,
      absolute := 1, last_x := -1, last_y := -1, pix_bpp := 1,
      vpm := { vpm_resize := false, vpm_bell := 0, vpm_null_update := false,
               vpm_server_cut_text := false, vpm_cursor_update := false,
               vpm_region_updates := [] },
      update_row := fun _ => 0 } rfl rfl rfl
  simpa using h

/-- One unfolding step of the find_update_height loop. -/
theorem find_update_height_go_succ (y mask : Nat) (rows : Nat → Nat)
    (h n : Nat) :
    find_update_height_go y mask rows h (n + 1)
      = if rows (y + h) &&& mask ≠ 0 then
          find_update_height_go y mask
            (fun r => if r = y + h then rows r &&& NOT64 mask else rows r)
            (h + 1) n
        else (h, rows) := rfl

/-- Behaviour of the find_update_height loop: the returned height
extends the starting one, the run stops at the window edge or at the
first row without the bit, every row strictly inside the run had the
bit set and comes out with it cleared, and rows outside the run are
untouched. -/
theorem find_update_height_go_spec (mask maxy y : Nat) :
    ∀ (n h : Nat) (rows : Nat → Nat), n = maxy - (y + h) →
    h ≤ (find_update_height_go y mask rows h n).1 ∧
    (maxy ≤ y + (find_update_height_go y mask rows h n).1 ∨
      rows (y + (find_update_height_go y mask rows h n).1) &&& mask = 0) ∧
    (∀ j, h ≤ j → j < (find_update_height_go y mask rows h n).1 →
      rows (y + j) &&& mask ≠ 0) ∧
    (∀ j, h ≤ j → j < (find_update_height_go y mask rows h n).1 →
      (find_update_height_go y mask rows h n).2 (y + j)
        = rows (y + j) &&& NOT64 mask) ∧
    (∀ i, i < y + h ∨ y + (find_update_height_go y mask rows h n).1 ≤ i →
      (find_update_height_go y mask rows h n).2 i = rows i) := by
  intro n
  induction n with
  | zero =>
    intro h rows hn
    refine ⟨le_rfl, Or.inl ?_, ?_, ?_, fun i _ => rfl⟩
    · show maxy ≤ y + h
      omega
    · intro j h1 h2
      have h2' : j < h := h2
      exact absurd h2' (by omega)
    · intro j h1 h2
      have h2' : j < h := h2
      exact absurd h2' (by omega)
  | succ n ih =>
    intro h rows hn
    rw [find_update_height_go_succ]
    by_cases hbit : rows (y + h) &&& mask ≠ 0
    · rw [if_pos hbit]
      have hn' : n = maxy - (y + (h + 1)) := by omega
      obtain ⟨c1, c2, c3, c4, c5⟩ := ih (h + 1)
        (fun r => if r = y + h then rows r &&& NOT64 mask else rows r) hn'
      refine ⟨by omega, ?_, ?_, ?_, ?_⟩
      · rcases c2 with hc | hc
        · exact Or.inl hc
        · right
          rw [if_neg (by omega)] at hc
          exact hc
      · intro j h1 h2
        rcases Nat.eq_or_lt_of_le h1 with he | hlt
        · rw [← he] at h2 ⊢
          exact hbit
        · have hc := c3 j (by omega) h2
          rw [if_neg (by omega)] at hc
          exact hc
      · intro j h1 h2
        rcases Nat.eq_or_lt_of_le h1 with he | hlt
        · have h5 := c5 (y + h) (Or.inl (by omega))
          rw [if_pos rfl] at h5
          rw [← he]
          exact h5
        · have hc := c4 j (by omega) h2
          rw [if_neg (by omega)] at hc
          exact hc
      · intro i hi
        have h5 := c5 i (by
          rcases hi with hi | hi
          · exact Or.inl (by omega)
          · exact Or.inr hi)
        rw [if_neg (by
          rcases hi with hi | hi
          · omega
          · omega)] at h5
        exact h5
    · rw [if_neg hbit]
      push_neg at hbit
      refine ⟨le_rfl, Or.inr hbit, ?_, ?_, fun i _ => rfl⟩
      · intro j h1 h2
        have h2' : j < h := h2
        exact absurd h2' (by omega)
      · intro j h1 h2
        have h2' : j < h := h2
        exact absurd h2' (by omega)

/-- One unfolding step of the per-row bit walk. -/
theorem drain_row_bits_succ (shift y maxy : Nat) (rows : Nat → Nat)
    (x n : Nat) :
    drain_row_bits shift y maxy rows x (n + 1)
      = if rows y &&& (1 <<< x) ≠ 0 then
          if (find_update_height rows y maxy (1 <<< x)).1 ≠ 0 then
            ((x <<< shift, y, 1 <<< shift,
                (find_update_height rows y maxy (1 <<< x)).1) ::
              (drain_row_bits shift y maxy
                (find_update_height rows y maxy (1 <<< x)).2 (x + 1) n).1,
              (drain_row_bits shift y maxy
                (find_update_height rows y maxy (1 <<< x)).2 (x + 1) n).2)
          else drain_row_bits shift y maxy
            (find_update_height rows y maxy (1 <<< x)).2 (x + 1) n
        else drain_row_bits shift y maxy rows (x + 1) n := rfl

/-- Every rectangle emitted by the bit walk of one row sits on that row,
is one dirty stripe wide and has positive height. -/
theorem drain_row_bits_rects (shift y maxy : Nat) :
    ∀ (n x : Nat) (rows : Nat → Nat) (rect : Nat × Nat × Nat × Nat),
      rect ∈ (drain_row_bits shift y maxy rows x n).1 →
      rect.2.1 = y ∧ rect.2.2.1 = 1 <<< shift ∧ 1 ≤ rect.2.2.2 := by
  intro n
  induction n with
  | zero =>
    intro x rows rect hmem
    exact absurd hmem (List.not_mem_nil rect)
  | succ n ih =>
    intro x rows rect hmem
    rw [drain_row_bits_succ] at hmem
    by_cases hbit : rows y &&& (1 <<< x) ≠ 0
    · rw [if_pos hbit] at hmem
      by_cases hh : (find_update_height rows y maxy (1 <<< x)).1 ≠ 0
      · rw [if_pos hh] at hmem
        have hmem' : rect = (x <<< shift, y, 1 <<< shift,
            (find_update_height rows y maxy (1 <<< x)).1) ∨
            rect ∈ (drain_row_bits shift y maxy
              (find_update_height rows y maxy (1 <<< x)).2 (x + 1) n).1 :=
          List.mem_cons.mp hmem
        rcases hmem' with he | hm
        · subst he
          refine ⟨rfl, rfl, ?_⟩
          show 1 ≤ (find_update_height rows y maxy (1 <<< x)).1
          omega
        · exact ih (x + 1) _ rect hm
      · rw [if_neg hh] at hmem
        exact ih (x + 1) _ rect hmem
    · rw [if_neg hbit] at hmem
      exact ih (x + 1) _ rect hmem

/-- The bit walk of row y never touches dirty words at or below y. -/
theorem drain_row_bits_preserve (shift y maxy : Nat) :
    ∀ (n x : Nat) (rows : Nat → Nat) (i : Nat), i ≤ y →
      (drain_row_bits shift y maxy rows x n).2 i = rows i := by
  intro n
  induction n with
  | zero => intro x rows i hi; rfl
  | succ n ih =>
    intro x rows i hi
    rw [drain_row_bits_succ]
    by_cases hbit : rows y &&& (1 <<< x) ≠ 0
    · rw [if_pos hbit]
      have hfu := (find_update_height_go_spec (1 <<< x) maxy y
        (maxy - (y + 1)) 1 rows rfl).2.2.2.2
      have hfp : (find_update_height rows y maxy (1 <<< x)).2 i = rows i :=
        hfu i (Or.inl (by omega))
      by_cases hh : (find_update_height rows y maxy (1 <<< x)).1 ≠ 0
      · rw [if_pos hh]
        show (drain_row_bits shift y maxy
            (find_update_height rows y maxy (1 <<< x)).2 (x + 1) n).2 i
          = rows i
        exact (ih (x + 1) _ i hi).trans hfp
      · rw [if_neg hh]
        exact (ih (x + 1) _ i hi).trans hfp
    · rw [if_neg hbit]
      exact ih (x + 1) rows i hi

/-- One unfolding step of the row drain. -/
theorem drain_rows_succ (shift maxy xd xu : Nat) (rows : Nat → Nat)
    (y n : Nat) :
    drain_rows shift maxy xd xu rows y (n + 1)
      = ((drain_row_bits shift y maxy rows xd (xu - xd)).1 ++
          (drain_rows shift maxy xd xu
            (fun i => if i = y then 0
              else (drain_row_bits shift y maxy rows xd (xu - xd)).2 i)
            (y + 1) n).1,
         (drain_rows shift maxy xd xu
            (fun i => if i = y then 0
              else (drain_row_bits shift y maxy rows xd (xu - xd)).2 i)
            (y + 1) n).2) := rfl

/-- Every rectangle emitted by the row drain sits on a processed row,
is one dirty stripe wide and has positive height. -/
theorem drain_rows_rects (shift maxy xd xu : Nat) :
    ∀ (n y : Nat) (rows : Nat → Nat) (rect : Nat × Nat × Nat × Nat),
      rect ∈ (drain_rows shift maxy xd xu rows y n).1 →
      y ≤ rect.2.1 ∧ rect.2.1 < y + n ∧
        rect.2.2.1 = 1 <<< shift ∧ 1 ≤ rect.2.2.2 := by
  intro n
  induction n with
  | zero =>
    intro y rows rect hmem
    exact absurd hmem (List.not_mem_nil rect)
  | succ n ih =>
    intro y rows rect hmem
    rw [drain_rows_succ] at hmem
    rcases List.mem_append.mp hmem with hm | hm
    · obtain ⟨h1, h2, h3⟩ :=
        drain_row_bits_rects shift y maxy (xu - xd) xd rows rect hm
      exact ⟨by omega, by omega, h2, h3⟩
    · obtain ⟨h1, h2, h3, h4⟩ := ih (y + 1) _ rect hm
      exact ⟨by omega, by omega, h3, h4⟩

/-- The rectangles of the row drain come out ordered by row, top to
bottom. -/
theorem drain_rows_sorted (shift maxy xd xu : Nat) :
    ∀ (n y : Nat) (rows : Nat → Nat),
      List.Pairwise (fun (a b : Nat × Nat × Nat × Nat) => a.2.1 ≤ b.2.1)
        (drain_rows shift maxy xd xu rows y n).1 := by
  intro n
  induction n with
  | zero => intro y rows; exact List.Pairwise.nil
  | succ n ih =>
    intro y rows
    rw [drain_rows_succ]
    show List.Pairwise _
      ((drain_row_bits shift y maxy rows xd (xu - xd)).1 ++
        (drain_rows shift maxy xd xu
          (fun i => if i = y then 0
            else (drain_row_bits shift y maxy rows xd (xu - xd)).2 i)
          (y + 1) n).1)
    refine List.pairwise_append.mpr ⟨?_, ih (y + 1) _, ?_⟩
    · refine List.pairwise_of_forall_mem_list ?_
      intro a ha b hb
      have h1 :=
        (drain_row_bits_rects shift y maxy (xu - xd) xd rows a ha).1
      have h2 :=
        (drain_row_bits_rects shift y maxy (xu - xd) xd rows b hb).1
      omega
    · intro a ha b hb
      have h1 :=
        (drain_row_bits_rects shift y maxy (xu - xd) xd rows a ha).1
      have h2 := (drain_rows_rects shift maxy xd xu n (y + 1) _ b hb).1
      omega

/-- The row drain leaves dirty words below its starting row alone. -/
theorem drain_rows_preserve (shift maxy xd xu : Nat) :
    ∀ (n y : Nat) (rows : Nat → Nat) (i : Nat), i < y →
      (drain_rows shift maxy xd xu rows y n).2 i = rows i := by
  intro n
  induction n with
  | zero => intro y rows i hi; rfl
  | succ n ih =>
    intro y rows i hi
    rw [drain_rows_succ]
    show (drain_rows shift maxy xd xu
        (fun j => if j = y then 0
          else (drain_row_bits shift y maxy rows xd (xu - xd)).2 j)
        (y + 1) n).2 i = rows i
    rw [ih (y + 1) _ i (by omega)]
    rw [if_neg (by omega)]
    exact drain_row_bits_preserve shift y maxy (xu - xd) xd rows i
      (by omega)

/-- A drain with exact fuel zeroes every dirty word of the processed
window. -/
theorem drain_rows_zero (shift maxy xd xu : Nat) :
    ∀ (n y : Nat) (rows : Nat → Nat), n = maxy - y →
      ∀ i, y ≤ i → i < maxy →
      (drain_rows shift maxy xd xu rows y n).2 i = 0 := by
  intro n
  induction n with
  | zero =>
    intro y rows hn i h1 h2
    exact absurd h2 (by omega)
  | succ n ih =>
    intro y rows hn i h1 h2
    rw [drain_rows_succ]
    show (drain_rows shift maxy xd xu
        (fun j => if j = y then 0
          else (drain_row_bits shift y maxy rows xd (xu - xd)).2 j)
        (y + 1) n).2 i = 0
    rcases Nat.eq_or_lt_of_le h1 with he | hlt
    · rw [drain_rows_preserve shift maxy xd xu n (y + 1) _ i (by omega)]
      rw [if_pos he.symm]
    · exact ih (y + 1) _ (by omega) i (by omega) h2

/-- Claim C9 (confirmed): dirty-region drain.  find_update_height
returns the maximal vertical run of rows carrying the mask bit starting
at row y: the run has height at least 1, stops at the window edge or at
the first row without the bit, every row strictly inside the run had
the bit set and comes out with it cleared, and rows outside the run are
untouched.  Every rectangle queued by the drain loop of
vnc_process_messages lies on a processed visible row, is exactly one
dirty stripe (1 << dirty_pixel_shift pixels) wide and at least one row
high; the rectangles come out ordered by row, top to bottom; and after
a drain whose visible region covers the whole framebuffer every dirty
word of the framebuffer rows is 0. -/
theorem dirty_drain_spec :
    (∀ (rows : Nat → Nat) (y maxy mask : Nat),
      1 ≤ (find_update_height rows y maxy mask).1 ∧
      (maxy ≤ y + (find_update_height rows y maxy mask).1 ∨
        rows (y + (find_update_height rows y maxy mask).1) &&& mask
          = 0) ∧
      (∀ j, 1 ≤ j → j < (find_update_height rows y maxy mask).1 →
        rows (y + j) &&& mask ≠ 0) ∧
      (∀ j, 1 ≤ j → j < (find_update_height rows y maxy mask).1 →
        (find_update_height rows y maxy mask).2 (y + j)
          = rows (y + j) &&& NOT64 mask) ∧
      (∀ i, i < y + 1 ∨
          y + (find_update_height rows y maxy mask).1 ≤ i →
        (find_update_height rows y maxy mask).2 i = rows i)) ∧
    (∀ (vs : VncState) (rows : Nat → Nat)
        (rect : Nat × Nat × Nat × Nat),
      rect ∈ (vnc_process_messages_drain vs rows).1 →
      vs.visible_y ≤ rect.2.1 ∧
        rect.2.1 < min (vs.visible_y + vs.visible_h) vs.ds_height ∧
        rect.2.2.1 = 1 <<< vs.dirty_pixel_shift ∧ 1 ≤ rect.2.2.2) ∧
    (∀ (vs : VncState) (rows : Nat → Nat),
      List.Pairwise (fun (a b : Nat × Nat × Nat × Nat) => a.2.1 ≤ b.2.1)
        (vnc_process_messages_drain vs rows).1) ∧
    (∀ (vs : VncState) (rows : Nat → Nat), vs.visible_y = 0 →
      vs.ds_height ≤ vs.visible_y + vs.visible_h →
      ∀ i, i < vs.ds_height →
      (vnc_process_messages_drain vs rows).2 i = 0) := by
  refine ⟨?_, ?_, ?_, ?_⟩
  · intro rows y maxy mask
    exact find_update_height_go_spec mask maxy y (maxy - (y + 1)) 1
      rows rfl
  · intro vs rows rect hmem
    obtain ⟨h1, h2, h3, h4⟩ := drain_rows_rects vs.dirty_pixel_shift
      (min (vs.visible_y + vs.visible_h) vs.ds_height)
      (X2DP_DOWN vs vs.visible_x)
      (X2DP_UP vs (min (vs.visible_x + vs.visible_w) vs.ds_width))
      (min (vs.visible_y + vs.visible_h) vs.ds_height - vs.visible_y)
      vs.visible_y rows rect hmem
    exact ⟨h1, by omega, h3, h4⟩
  · intro vs rows
    exact drain_rows_sorted vs.dirty_pixel_shift
      (min (vs.visible_y + vs.visible_h) vs.ds_height)
      (X2DP_DOWN vs vs.visible_x)
      (X2DP_UP vs (min (vs.visible_x + vs.visible_w) vs.ds_width))
      (min (vs.visible_y + vs.visible_h) vs.ds_height - vs.visible_y)
      vs.visible_y rows
  · intro vs rows hvy hcov i hi
    exact drain_rows_zero vs.dirty_pixel_shift
      (min (vs.visible_y + vs.visible_h) vs.ds_height)
      (X2DP_DOWN vs vs.visible_x)
      (X2DP_UP vs (min (vs.visible_x + vs.visible_w) vs.ds_width))
      (min (vs.visible_y + vs.visible_h) vs.ds_height - vs.visible_y)
      vs.visible_y rows rfl i (by omega) (by omega)

/-- Concrete instance of the dirty-drain behaviour: a 2 by 2 screen with
one dirty stripe spanning both rows yields the single rectangle
(0, 0, 1, 2), ordered output and an all-clean bitmap afterwards; the
run scan on a four-row window with the bottom row clean reports height
3. -/
theorem dirty_drain_spec_witness :
    (1 ≤ (find_update_height (fun i => if i < 3 then 1 else 0)
        0 4 1).1 ∧
      (4 ≤ 0 + (find_update_height (fun i => if i < 3 then 1 else 0)
          0 4 1).1 ∨
        (if 0 + (find_update_height (fun i => if i < 3 then 1 else 0)
            0 4 1).1 < 3 then 1 else 0) &&& 1 = 0) ∧
      (∀ j, 1 ≤ j →
        j < (find_update_height (fun i => if i < 3 then 1 else 0)
          0 4 1).1 →
        (if 0 + j < 3 then 1 else 0) &&& 1 ≠ 0) ∧
      (∀ j, 1 ≤ j →
        j < (find_update_height (fun i => if i < 3 then 1 else 0)
          0 4 1).1 →
        (find_update_height (fun i => if i < 3 then 1 else 0)
            0 4 1).2 (0 + j)
          = (if 0 + j < 3 then 1 else 0) &&& NOT64 1) ∧
      (∀ i, i < 0 + 1 ∨
          0 + (find_update_height (fun i => if i < 3 then 1 else 0)
            0 4 1).1 ≤ i →
        (find_update_height (fun i => if i < 3 then 1 else 0)
            0 4 1).2 i
          = if i < 3 then 1 else 0)) ∧
    ((0, 0, 1, 2) ∈ (vnc_process_messages_drain
        { title := [], timer := false, timer_interval := 0,
          last_update_time := 0, ds_width := 2, ds_height := 2,
          depth := 8, dirty_pixel_shift := 0, has_update := false,
          visible_x := 0, visible_y := 0, visible_w := 2,
          visible_h := 2, send_resize := false, vcs := [] }
        (fun i => if i < 2 then 1 else 0)).1 ∧
      (0 : Nat) ≤ 0 ∧ (0 : Nat) < min (0 + 2) 2 ∧
      (1 : Nat) = 1 <<< 0 ∧ (1 : Nat) ≤ 2) ∧
    List.Pairwise (fun (a b : Nat × Nat × Nat × Nat) => a.2.1 ≤ b.2.1)
      (vnc_process_messages_drain
        { title := [], timer := false, timer_interval := 0,
          last_update_time := 0, ds_width := 2, ds_height := 2,
          depth := 8, dirty_pixel_shift := 0, has_update := false,
          visible_x := 0, visible_y := 0, visible_w := 2,
          visible_h := 2, send_resize := false, vcs := [] }
        (fun i => if i < 2 then 1 else 0)).1 ∧
    (vnc_process_messages_drain
        { title := [], timer := false, timer_interval := 0,
          last_update_time := 0, ds_width := 2, ds_height := 2,
          depth := 8, dirty_pixel_shift := 0, has_update := false,
          visible_x := 0, visible_y := 0, visible_w := 2,
          visible_h := 2, send_resize := false, vcs := [] }
        (fun i => if i < 2 then 1 else 0)).2 1 = 0 := by
  obtain ⟨h1, h2, h3, h4⟩ := dirty_drain_spec
  refine ⟨h1 (fun i => if i < 3 then 1 else 0) 0 4 1, ⟨?_, ?_⟩, ?_, ?_⟩
  · decide
  · exact h2
      { title := [], timer := false, timer_interval := 0,
        last_update_time := 0, ds_width := 2, ds_height := 2,
        depth := 8, dirty_pixel_shift := 0, has_update := false,
        visible_x := 0, visible_y := 0, visible_w := 2,
        visible_h := 2, send_resize := false, vcs := [] }
      (fun i => if i < 2 then 1 else 0) (0, 0, 1, 2) (by decide)
  · exact h3
      { title := [], timer := false, timer_interval := 0,
        last_update_time := 0, ds_width := 2, ds_height := 2,
        depth := 8, dirty_pixel_shift := 0, has_update := false,
        visible_x := 0, visible_y := 0, visible_w := 2,
        visible_h := 2, send_resize := false, vcs := [] }
      (fun i => if i < 2 then 1 else 0)
  · exact h4
      { title := [], timer := false, timer_interval := 0,
        last_update_time := 0, ds_width := 2, ds_height := 2,
        depth := 8, dirty_pixel_shift := 0, has_update := false,
        visible_x := 0, visible_y := 0, visible_w := 2,
        visible_h := 2, send_resize := false, vcs := [] }
      (fun i => if i < 2 then 1 else 0) rfl (by decide) 1 (by decide)

end Vnc

namespace Console

/-- Claim C7: write_or_chunk drops bytes on a partial queue drain.  With
one two-byte chunk 88 89 queued of which the descriptor accepts one
byte, a call with the two-byte payload 65 66 writes byte 88, leaves the
queue holding 89 and then 66, and byte 65 of the payload is neither
written nor queued: the drain count of the old chunk is reused as an
offset into the new payload, so the written bytes plus the queued bytes
no longer account for the whole payload. -/
theorem write_or_chunk_drops_bytes :
    write_or_chunk [1] [[88, 89]] [65, 66] = ([88], [[89], [66]]) ∧
      (write_or_chunk [1] [[88, 89]] [65, 66]).1 ++
          (write_or_chunk [1] [[88, 89]] [65, 66]).2.flatten = [88, 89, 66] ∧
      (65 : Nat) ∈ [65, 66] ∧ (65 : Nat) ∉ [88, 89, 66] := by
  refine ⟨by decide, by decide, by decide, by decide⟩

end Console

namespace Console

/-- Claim C1: the cursor and scroll-region invariant fails on the code.
On a freshly initialised 640 by 384 console (80 columns, 24 rows),
feeding the five bytes of ESC [ 5 0 d leaves the cursor row at 49,
outside the screen: the VPA case applies no clamp.  Feeding the eight
bytes of ESC [ 3 0 ; 5 0 r leaves sr_top at 29 and sr_bottom at 23,
because the clip_xy macro clamps sr_top against the width instead of
the height, and homes the cursor to the out-of-range row 29. -/
theorem vpa_decstbm_out_of_bounds :
    (console_puts cmDemo (text_console_init 640 384) [27, 91, 53, 48, 100]).y
        = 49 ∧
      (console_puts cmDemo (text_console_init 640 384)
          [27, 91, 53, 48, 100]).height = 24 ∧
      ¬ ((console_puts cmDemo (text_console_init 640 384)
            [27, 91, 53, 48, 100]).y <
          (console_puts cmDemo (text_console_init 640 384)
            [27, 91, 53, 48, 100]).height) ∧
      (console_puts cmDemo (text_console_init 640 384)
          [27, 91, 51, 48, 59, 53, 48, 114]).sr_top = 29 ∧
      (console_puts cmDemo (text_console_init 640 384)
          [27, 91, 51, 48, 59, 53, 48, 114]).sr_bottom = 23 ∧
      (console_puts cmDemo (text_console_init 640 384)
          [27, 91, 51, 48, 59, 53, 48, 114]).y = 29 := by
  refine ⟨by decide, by decide, by decide, by decide, by decide, by decide⟩

/-- Claim C2, counterexample: MAX_ESC_PARAMS is 3, not at least 16, and
the fourth parameter of the sequence ESC [ 1 ; 2 ; 3 ; 4 m is recorded
nowhere: the first three slots hold 1, 2 and 3, every further slot is
untouched, although the parameter count reaches 4. -/
theorem max_esc_params_is_three :
    MAX_ESC_PARAMS = 3 ∧ ¬ (16 ≤ MAX_ESC_PARAMS) ∧
      (console_puts cmDemo (text_console_init 640 384)
          [27, 91, 49, 59, 50, 59, 51, 59, 52, 109]).nb_esc_params = 4 ∧
      (console_puts cmDemo (text_console_init 640 384)
          [27, 91, 49, 59, 50, 59, 51, 59, 52, 109]).esc_params 0 = 1 ∧
      (console_puts cmDemo (text_console_init 640 384)
          [27, 91, 49, 59, 50, 59, 51, 59, 52, 109]).esc_params 1 = 2 ∧
      (console_puts cmDemo (text_console_init 640 384)
          [27, 91, 49, 59, 50, 59, 51, 59, 52, 109]).esc_params 2 = 3 ∧
      (console_puts cmDemo (text_console_init 640 384)
          [27, 91, 49, 59, 50, 59, 51, 59, 52, 109]).esc_params 3 = 0 := by
  refine ⟨by decide, by decide, by decide, by decide, by decide, by decide,
    by decide⟩

set_option maxRecDepth 8000 in
/-- Claim C3, counterexample: an unmappable codepoint is written as glyph
0, not as the question mark 0x3F.  On the fresh console (codec Latin-1,
UTF-8 on), the valid three-byte sequence E8 80 80 decodes to U+8000,
which the demonstration table does not map; the cell written at the
cursor receives glyph 0. -/
theorem utf8_unmapped_glyph_zero :
    ((console_puts cmDemo (text_console_init 640 384)
          [232, 128, 128]).cells (170 * 80)).ch = 0 ∧
      ((console_puts cmDemo (text_console_init 640 384)
          [232, 128, 128]).cells (170 * 80)).ch ≠ 0x3F ∧
      (∀ j, j < 256 → UTFVAL cmDemo MAPGRAF j ≠ 0x8000) := by
  refine ⟨by decide, by decide, by decide⟩

/-- One unfolding step of the binary-search loop, with the midpoint
written out. -/
theorem glyph_search_go_succ (cm : Nat → Nat → Nat)
    (curf chart low high1 o n : Nat) :
    glyph_search_go cm curf chart low high1 o (n + 1)
      = if low < high1 then
          if UTFVAL cm curf ((low + (high1 - 1)) / 2) > chart then
            glyph_search_go cm curf chart low ((low + (high1 - 1)) / 2) o n
          else if UTFVAL cm curf ((low + (high1 - 1)) / 2) < chart then
            glyph_search_go cm curf chart ((low + (high1 - 1)) / 2 + 1)
              high1 o n
          else (cm curf ((low + (high1 - 1)) / 2) >>> 16) &&& 0xff
        else o := rfl

/-- The binary-search loop returns its accumulator unchanged when no
entry of the window carries the sought Unicode value. -/
theorem glyph_search_go_miss (cm : Nat → Nat → Nat) (curf chart : Nat) :
    ∀ (n low high1 o : Nat), high1 - low ≤ n →
    (∀ j, low ≤ j → j < high1 → UTFVAL cm curf j ≠ chart) →
    glyph_search_go cm curf chart low high1 o n = o := by
  intro n
  induction n with
  | zero => intro low high1 o hn hmiss; rfl
  | succ n ih =>
    intro low high1 o hn hmiss
    by_cases hlh : low < high1
    · have hmid1 : low ≤ (low + (high1 - 1)) / 2 := by omega
      have hmid2 : (low + (high1 - 1)) / 2 < high1 := by omega
      rw [glyph_search_go_succ, if_pos hlh]
      rcases Nat.lt_trichotomy chart
        (UTFVAL cm curf ((low + (high1 - 1)) / 2)) with h | h | h
      · rw [if_pos h]
        exact ih low _ o (by omega)
          (fun j hj1 hj2 => hmiss j hj1 (by omega))
      · exact absurd h.symm (hmiss _ hmid1 hmid2)
      · rw [if_neg (by omega), if_pos h]
        exact ih _ high1 o (by omega)
          (fun j hj1 hj2 => hmiss j (by omega) hj2)
    · rw [glyph_search_go_succ, if_neg hlh]

/-- On a table strictly sorted by Unicode value, the binary-search loop
finds the entry carrying the sought value whenever the window holds
it. -/
theorem glyph_search_go_hit (cm : Nat → Nat → Nat) (curf chart k : Nat)
    (hsort : ∀ i j, i < j → j < 256 → UTFVAL cm curf i < UTFVAL cm curf j)
    (hk : UTFVAL cm curf k = chart) :
    ∀ (n low high1 o : Nat), high1 - low ≤ n → low ≤ k → k < high1 →
    high1 ≤ 256 →
    glyph_search_go cm curf chart low high1 o n
      = (cm curf k >>> 16) &&& 0xff := by
  intro n
  induction n with
  | zero => intro low high1 o hn h1 h2 h3; exact absurd hn (by omega)
  | succ n ih =>
    intro low high1 o hn h1 h2 h3
    have hlh : low < high1 := by omega
    have hmid1 : low ≤ (low + (high1 - 1)) / 2 := by omega
    have hmid2 : (low + (high1 - 1)) / 2 < high1 := by omega
    rw [glyph_search_go_succ, if_pos hlh]
    rcases Nat.lt_trichotomy chart
      (UTFVAL cm curf ((low + (high1 - 1)) / 2)) with h | h | h
    · rw [if_pos h]
      have hkm : k < (low + (high1 - 1)) / 2 := by
        rcases Nat.lt_trichotomy k ((low + (high1 - 1)) / 2) with hh | hh | hh
        · exact hh
        · rw [← hh] at h
          omega
        · have hlt := hsort _ _ hh (by omega)
          rw [hk] at hlt
          omega
      exact ih low _ o (by omega) h1 hkm (by omega)
    · rw [if_neg (by omega), if_neg (by omega)]
      have he : (low + (high1 - 1)) / 2 = k := by
        rcases Nat.lt_trichotomy ((low + (high1 - 1)) / 2) k with hh | hh | hh
        · have hlt := hsort _ _ hh (by omega)
          rw [hk] at hlt
          omega
        · exact hh
        · have hlt := hsort _ _ hh (by omega)
          rw [hk] at hlt
          omega
      rw [he]
    · rw [if_neg (by omega), if_pos h]
      have hkm : (low + (high1 - 1)) / 2 < k := by
        rcases Nat.lt_trichotomy ((low + (high1 - 1)) / 2) k with hh | hh | hh
        · exact hh
        · rw [hh] at h
          omega
        · have hlt := hsort _ _ hh (by omega)
          rw [hk] at hlt
          omega
      exact ih _ high1 o (by omega) (by omega) h2 h3

/-- In the NORM state a byte at or above 128 other than CSI 0x9B takes
the character path. -/
theorem console_putchar_norm_default (cm : Nat → Nat → Nat)
    (s : TextConsole) (ch : Nat) (hst : s.state = TTYState.norm)
    (hge : 128 ≤ ch) (h155 : ch ≠ 155) :
    console_putchar cm s ch = norm_input cm s ch := by
  simp only [console_putchar, hst]
  rw [if_neg (by omega : ¬ ch = 7), if_neg (by omega : ¬ ch = 8),
    if_neg (by omega : ¬ ch = 9),
    if_neg (by omega : ¬ (ch = 10 ∨ ch = 11 ∨ ch = 12)),
    if_neg (by omega : ¬ ch = 13), if_neg (by omega : ¬ ch = 14),
    if_neg (by omega : ¬ ch = 15),
    if_neg (by omega : ¬ (ch = 24 ∨ ch = 26)),
    if_neg (by omega : ¬ ch = 27), if_neg (by omega : ¬ ch = 127),
    if_neg h155]

/-- A two-byte UTF-8 lead byte starts sequence assembly. -/
theorem norm_input_start2 (cm : Nat → Nat → Nat) (s : TextConsole)
    (ch : Nat) (hutf : s.t_attrib.utf = true) (hui : s.unicodeIndex = 0)
    (hb2 : ch &&& 0xe0 = 0xc0) :
    norm_input cm s ch = { s with
      unicodeData := fun i => if i = 0 then ch else s.unicodeData i,
      unicodeIndex := 1, unicodeLength := 2 } := by
  simp [norm_input, hutf, hui, hb2]

/-- A three-byte UTF-8 lead byte starts sequence assembly. -/
theorem norm_input_start3 (cm : Nat → Nat → Nat) (s : TextConsole)
    (ch : Nat) (hutf : s.t_attrib.utf = true) (hui : s.unicodeIndex = 0)
    (hb : ch &&& 0xf0 = 0xe0) :
    norm_input cm s ch = { s with
      unicodeData := fun i => if i = 0 then ch else s.unicodeData i,
      unicodeIndex := 1, unicodeLength := 3 } := by
  have h2 : ch &&& 0xe0 = 0xe0 := by
    have h := Nat.and_assoc ch 0xf0 0xe0
    rw [hb] at h
    simpa using h.symm
  simp [norm_input, hutf, hui, h2, hb]

/-- Emission of a two-byte UTF-8 sequence: the cell under the cursor
receives the glyph of the decoded codepoint. -/
theorem utf8_walk2 (cm : Nat → Nat → Nat) (s : TextConsole) (b0 b1 : Nat)
    (hst : s.state = TTYState.norm) (hutf : s.t_attrib.utf = true)
    (hui : s.unicodeIndex = 0) (hw : s.wrapped = false)
    (hys : s.y_scroll = 0)
    (hb0 : b0 &&& 0xe0 = 0xc0) (hb1 : b1 &&& 0xc0 = 0x80) (h155 : b1 ≠ 155) :
    ((console_putchar cm (console_putchar cm s b0) b1).cells
        (screen_to_virtual s s.y * s.width + s.x)).ch
      = get_glyphcode cm s (((b0 &&& 0x1f) <<< 6) ||| (b1 &&& 0x3f)) := by
  have hge0 : 0xc0 ≤ b0 := by
    have h : b0 &&& 0xe0 ≤ b0 := Nat.and_le_left
    omega
  have hge1 : 0x80 ≤ b1 := by
    have h : b1 &&& 0xc0 ≤ b1 := Nat.and_le_left
    omega
  rw [console_putchar_norm_default cm s b0 hst (by omega) (by omega),
    norm_input_start2 cm s b0 hutf hui hb0]
  rw [console_putchar_norm_default cm { s with
      unicodeData := fun i => if i = 0 then b0 else s.unicodeData i,
      unicodeIndex := 1, unicodeLength := 2 } b1 hst (by omega) h155]
  simp [norm_input, do_putchar, scroll_to_base, set_cursor, setCells,
    hutf, hb1, hys, hw]
  split_ifs <;> simp [screen_to_virtual, hys] <;> rfl

/-- Emission of a three-byte UTF-8 sequence: the cell under the cursor
receives the glyph of the decoded codepoint. -/
theorem utf8_walk3 (cm : Nat → Nat → Nat) (s : TextConsole)
    (b0 b1 b2 : Nat)
    (hst : s.state = TTYState.norm) (hutf : s.t_attrib.utf = true)
    (hui : s.unicodeIndex = 0) (hw : s.wrapped = false)
    (hys : s.y_scroll = 0)
    (hb0 : b0 &&& 0xf0 = 0xe0) (hb1 : b1 &&& 0xc0 = 0x80)
    (hb2 : b2 &&& 0xc0 = 0x80) (h155a : b1 ≠ 155) (h155b : b2 ≠ 155) :
    ((console_putchar cm
          (console_putchar cm (console_putchar cm s b0) b1) b2).cells
        (screen_to_virtual s s.y * s.width + s.x)).ch
      = get_glyphcode cm s
          (((b0 &&& 0x0f) <<< 12) ||| ((b1 &&& 0x3f) <<< 6) |||
            (b2 &&& 0x3f)) := by
  have hge0 : 0xe0 ≤ b0 := by
    have h : b0 &&& 0xf0 ≤ b0 := Nat.and_le_left
    omega
  have hge1 : 0x80 ≤ b1 := by
    have h : b1 &&& 0xc0 ≤ b1 := Nat.and_le_left
    omega
  have hge2 : 0x80 ≤ b2 := by
    have h : b2 &&& 0xc0 ≤ b2 := Nat.and_le_left
    omega
  rw [console_putchar_norm_default cm s b0 hst (by omega) (by omega),
    norm_input_start3 cm s b0 hutf hui hb0]
  rw [console_putchar_norm_default cm { s with
      unicodeData := fun i => if i = 0 then b0 else s.unicodeData i,
      unicodeIndex := 1, unicodeLength := 3 } b1 hst (by omega) h155a]
  have hmid : norm_input cm { s with
      unicodeData := fun i => if i = 0 then b0 else s.unicodeData i,
      unicodeIndex := 1, unicodeLength := 3 } b1
    = { s with
      unicodeData := fun i =>
        if i = 1 then b1 else if i = 0 then b0 else s.unicodeData i,
      unicodeIndex := 2, unicodeLength := 3 } := by
    simp [norm_input, hutf, hb1]
  rw [hmid]
  rw [console_putchar_norm_default cm { s with
      unicodeData := fun i =>
        if i = 1 then b1 else if i = 0 then b0 else s.unicodeData i,
      unicodeIndex := 2, unicodeLength := 3 } b2 hst (by omega) h155b]
  simp [norm_input, do_putchar, scroll_to_base, set_cursor, setCells,
    hutf, hb2, hys, hw]
  split_ifs <;> simp [screen_to_virtual, hys] <;> rfl

/-- Claim C3 (corrected): UTF-8 codepoint-to-glyph mapping.  A valid
two- or three-byte UTF-8 sequence fed to console_putchar in the NORM
state with UTF mode on writes the glyph get_glyphcode of the decoded
codepoint into the cell under the cursor; the Latin-1 codec passes
codepoints below 256 through verbatim; on a table strictly sorted by
Unicode value, a codepoint carried by entry k of the active codec's
table yields the glyph byte stored in entry k; but a codepoint carried
by no entry yields glyph 0, not the question mark 0x3F. -/
theorem utf8_codec_mapping :
    (∀ (cm : Nat → Nat → Nat) (s : TextConsole) (b0 b1 : Nat),
      s.state = TTYState.norm → s.t_attrib.utf = true →
      s.unicodeIndex = 0 → s.wrapped = false → s.y_scroll = 0 →
      b0 &&& 0xe0 = 0xc0 → b1 &&& 0xc0 = 0x80 → b1 ≠ 155 →
      ((console_putchar cm (console_putchar cm s b0) b1).cells
          (screen_to_virtual s s.y * s.width + s.x)).ch
        = get_glyphcode cm s (((b0 &&& 0x1f) <<< 6) ||| (b1 &&& 0x3f))) ∧
    (∀ (cm : Nat → Nat → Nat) (s : TextConsole) (b0 b1 b2 : Nat),
      s.state = TTYState.norm → s.t_attrib.utf = true →
      s.unicodeIndex = 0 → s.wrapped = false → s.y_scroll = 0 →
      b0 &&& 0xf0 = 0xe0 → b1 &&& 0xc0 = 0x80 → b2 &&& 0xc0 = 0x80 →
      b1 ≠ 155 → b2 ≠ 155 →
      ((console_putchar cm
            (console_putchar cm (console_putchar cm s b0) b1) b2).cells
          (screen_to_virtual s s.y * s.width + s.x)).ch
        = get_glyphcode cm s
            (((b0 &&& 0x0f) <<< 12) ||| ((b1 &&& 0x3f) <<< 6) |||
              (b2 &&& 0x3f))) ∧
    (∀ (cm : Nat → Nat → Nat) (s : TextConsole) (cp : Nat),
      s.t_attrib.codec s.t_attrib.font = MAPLAT1 → cp < 256 →
      get_glyphcode cm s cp = cp) ∧
    (∀ (cm : Nat → Nat → Nat) (s : TextConsole) (curf cp k : Nat),
      s.t_attrib.codec s.t_attrib.font = curf → curf ≠ MAPLAT1 →
      (∀ j, j < 256 → ∀ i, i < j →
        UTFVAL cm curf i < UTFVAL cm curf j) →
      k < 256 → UTFVAL cm curf k = cp →
      get_glyphcode cm s cp = (cm curf k >>> 16) &&& 0xff) ∧
    (∀ (cm : Nat → Nat → Nat) (s : TextConsole) (curf cp : Nat),
      s.t_attrib.codec s.t_attrib.font = curf → curf ≠ MAPLAT1 →
      (∀ j, j < 256 → UTFVAL cm curf j ≠ cp) →
      get_glyphcode cm s cp = 0) ∧
    (∀ (cm : Nat → Nat → Nat) (s : TextConsole) (cp : Nat),
      s.t_attrib.codec s.t_attrib.font = MAPLAT1 → ¬ cp < 256 →
      (∀ j, j < 256 → UTFVAL cm MAPGRAF j ≠ cp) →
      get_glyphcode cm s cp = 0) := by
  refine ⟨utf8_walk2, utf8_walk3, ?_, ?_, ?_, ?_⟩
  · intro cm s cp hcurf hlt
    simp [get_glyphcode, hcurf, hlt]
  · intro cm s curf cp k hcurf hne hsort hk hval
    have h : get_glyphcode cm s cp = glyph_search cm curf cp 0 256 0 := by
      simp [get_glyphcode, hcurf, hne]
    rw [h]
    exact glyph_search_go_hit cm curf cp k
      (fun i j hij hj => hsort j hj i hij) hval 256 0 256 0
      (by omega) (Nat.zero_le k) hk le_rfl
  · intro cm s curf cp hcurf hne hmiss
    have h : get_glyphcode cm s cp = glyph_search cm curf cp 0 256 0 := by
      simp [get_glyphcode, hcurf, hne]
    rw [h]
    exact glyph_search_go_miss cm curf cp 256 0 256 0 (by omega)
      (fun j _ h2 => hmiss j h2)
  · intro cm s cp hcurf hge hmiss
    have h : get_glyphcode cm s cp
        = glyph_search cm MAPGRAF cp 0 256 0 := by
      simp [get_glyphcode, hcurf, hge]
    rw [h]
    exact glyph_search_go_miss cm MAPGRAF cp 256 0 256 0 (by omega)
      (fun j _ h2 => hmiss j h2)

set_option maxRecDepth 100000 in
/-- Concrete instances of the UTF-8 mapping claim: the two-byte sequence
C3 A9 and the three-byte sequence E8 80 80 on the fresh console, the
Latin-1 passthrough of 65, and a hit and two misses of the
demonstration table with the graphics font selected. -/
theorem utf8_codec_mapping_witness :
    ((console_putchar cmDemo (console_putchar cmDemo
          (text_console_init 640 384) 195) 169).cells
        (screen_to_virtual (text_console_init 640 384)
            (text_console_init 640 384).y *
            (text_console_init 640 384).width +
          (text_console_init 640 384).x)).ch
      = get_glyphcode cmDemo (text_console_init 640 384)
          (((195 &&& 0x1f) <<< 6) ||| (169 &&& 0x3f)) ∧
    ((console_putchar cmDemo (console_putchar cmDemo (console_putchar cmDemo
          (text_console_init 640 384) 232) 128) 128).cells
        (screen_to_virtual (text_console_init 640 384)
            (text_console_init 640 384).y *
            (text_console_init 640 384).width +
          (text_console_init 640 384).x)).ch
      = get_glyphcode cmDemo (text_console_init 640 384)
          (((232 &&& 0x0f) <<< 12) ||| ((128 &&& 0x3f) <<< 6) |||
            (128 &&& 0x3f)) ∧
    get_glyphcode cmDemo (text_console_init 640 384) 65 = 65 ∧
    get_glyphcode cmDemo { text_console_init 640 384 with
        t_attrib := { (text_console_init 640 384).t_attrib with
          font := 1 } } 100
      = (cmDemo 1 100 >>> 16) &&& 0xff ∧
    get_glyphcode cmDemo { text_console_init 640 384 with
        t_attrib := { (text_console_init 640 384).t_attrib with
          font := 1 } } 0x8000 = 0 ∧
    get_glyphcode cmDemo (text_console_init 640 384) 0x8000 = 0 := by
  obtain ⟨h1, h2, h3, h4, h5, h6⟩ := utf8_codec_mapping
  exact ⟨h1 cmDemo (text_console_init 640 384) 195 169 rfl rfl rfl rfl rfl
      (by decide) (by decide) (by decide),
    h2 cmDemo (text_console_init 640 384) 232 128 128 rfl rfl rfl rfl rfl
      (by decide) (by decide) (by decide) (by decide) (by decide),
    h3 cmDemo (text_console_init 640 384) 65 rfl (by decide),
    h4 cmDemo { text_console_init 640 384 with
        t_attrib := { (text_console_init 640 384).t_attrib with
          font := 1 } } 1 100 100 rfl (by decide) (by decide) (by decide)
      (by decide),
    h5 cmDemo { text_console_init 640 384 with
        t_attrib := { (text_console_init 640 384).t_attrib with
          font := 1 } } 1 0x8000 rfl (by decide) (by decide),
    h6 cmDemo (text_console_init 640 384) 0x8000 rfl (by decide)
      (by decide)⟩

end Console

namespace Console

set_option maxRecDepth 16000 in
/-- Claim C4: deferred autowrap.  First, a write into the rightmost
column with autowrap set leaves the cursor in place and records the
pending wrap.  Second, the next character on a wrapped cursor marks the
wrapped attribute of the cell written last, performs the line feed
first and lands the glyph at the start of the next row, cursor at
column 1.  Third, the 81-As scenario: on the fresh 80-column console,
81 letter-A bytes leave row 0 holding 80 As, cell 79 of row 0 carrying
the wrapped attribute, one A at the start of row 1 and the cursor at
column 1 of row 1. -/
theorem deferred_autowrap :
    (∀ (s : TextConsole) (ch : Nat), s.wrapped = false → s.y_scroll = 0 →
      s.x + 1 = s.width → s.autowrap = true →
      (do_putchar s ch).x = s.x ∧ (do_putchar s ch).wrapped = true) ∧
    (∀ (s : TextConsole) (ch : Nat), s.wrapped = true → s.y_scroll = 0 →
      s.y + 1 ≤ s.sr_bottom → 1 < s.width → 0 ≤ s.x → s.x < s.width →
      screen_to_virtual s (s.y + 1) ≠ screen_to_virtual s s.y →
      ((do_putchar s ch).cells
          (screen_to_virtual s s.y * s.width + s.x)).c_attrib.wrapped = true ∧
        ((do_putchar s ch).cells
          (screen_to_virtual s (s.y + 1) * s.width)).ch = ch ∧
        (do_putchar s ch).y = s.y + 1 ∧ (do_putchar s ch).x = 1) ∧
    ((console_puts cmDemo (text_console_init 640 384)
        (List.replicate 81 65)).x = 1 ∧
      (console_puts cmDemo (text_console_init 640 384)
        (List.replicate 81 65)).y = 1 ∧
      ((List.range 80).all (fun i =>
        ((console_puts cmDemo (text_console_init 640 384)
            (List.replicate 81 65)).cells (170 * 80 + i)).ch = 65)) = true ∧
      ((console_puts cmDemo (text_console_init 640 384)
          (List.replicate 81 65)).cells (170 * 80 + 79)).c_attrib.wrapped
        = true ∧
      ((console_puts cmDemo (text_console_init 640 384)
          (List.replicate 81 65)).cells (171 * 80)).ch = 65) := by
  refine ⟨?_, ?_, by decide, by decide, by decide, by decide, by decide⟩
  · intro s ch hw hys hx ha
    have hnlt : ¬ (s.x + 1 < s.width) := by omega
    simp [do_putchar, scroll_to_base, hys, hw, setCells, hnlt, ha]
  · intro s ch hw hys hsb hwid hx0 hx1 hvs
    have hvs' : screen_to_virtual s (s.y + 1) * s.width ≠
        screen_to_virtual s s.y * s.width + s.x := by
      intro he
      rcases lt_trichotomy (screen_to_virtual s (s.y + 1))
        (screen_to_virtual s s.y) with hlt | heq | hgt
      · nlinarith [mul_le_mul_of_nonneg_right
          (Int.add_one_le_iff.mpr hlt) (by omega : (0 : Int) ≤ s.width)]
      · exact hvs heq
      · nlinarith [mul_le_mul_of_nonneg_right
          (Int.add_one_le_iff.mpr hgt) (by omega : (0 : Int) ≤ s.width)]
    have hvs2 := Ne.symm hvs'
    have hnb : ¬ (s.y + 1 > s.sr_bottom) := by omega
    simp only [screen_to_virtual, hys, sub_zero, ite_mul] at hvs' hvs2
    simp [do_putchar, scroll_to_base, hys, hw, console_put_lf, set_cursor,
      setCells, hnb, screen_to_virtual, sub_zero, hvs', hvs2, hwid,
      show (0 : Int) + 1 < s.width from by omega]

end Console

namespace Console

set_option maxRecDepth 16000 in
/-- Concrete instance of the deferred-autowrap behaviour on the fresh
console with the cursor in the rightmost column. -/
theorem deferred_autowrap_witness :
    ((do_putchar { text_console_init 640 384 with x := 79 } 65).x = 79 ∧
      (do_putchar { text_console_init 640 384 with x := 79 } 65).wrapped
        = true) ∧
    ((do_putchar { text_console_init 640 384 with x := 79, wrapped := true }
          65).cells (170 * 80 + 79)).c_attrib.wrapped = true ∧
      ((do_putchar { text_console_init 640 384 with x := 79, wrapped := true }
          65).cells (171 * 80)).ch = 65 ∧
      (do_putchar { text_console_init 640 384 with x := 79, wrapped := true }
          65).y = 0 + 1 ∧
      (do_putchar { text_console_init 640 384 with x := 79, wrapped := true }
          65).x = 1 := by
  constructor
  · have h := (deferred_autowrap.1
      { text_console_init 640 384 with x := 79 } 65
      (by decide) (by decide) (by decide) (by decide))
    simpa using h
  · have h := (deferred_autowrap.2.1
      { text_console_init 640 384 with x := 79, wrapped := true } 65
      (by decide) (by decide) (by decide) (by decide) (by decide) (by decide)
      (by decide))
    simpa using h

end Console

namespace Vnc

/-- Resize propagation leaves the timer interval alone. -/
theorem vnc_send_resize_timer_interval (vs : VncState) :
    (vnc_send_resize vs).timer_interval = vs.timer_interval := by
  unfold vnc_send_resize
  split_ifs <;> rfl

/-- Resize propagation leaves the last update time alone. -/
theorem vnc_send_resize_last_update_time (vs : VncState) :
    (vnc_send_resize vs).last_update_time = vs.last_update_time := by
  unfold vnc_send_resize
  split_ifs <;> rfl

/-- The broadcast rectangle enqueue leaves the timer interval alone. -/
theorem send_framebuffer_update_all_timer_interval (vs : VncState)
    (x y w h : Nat) :
    (send_framebuffer_update_all vs x y w h).timer_interval
      = vs.timer_interval := rfl

/-- Resize propagation keeps every client slot, its pixel format and its
explicit rectangle queue. -/
theorem vnc_send_resize_get (vs : VncState) (i : Nat) (c : VncClientState)
    (h : vs.vcs[i]? = some (some c)) :
    ∃ c', (vnc_send_resize vs).vcs[i]? = some (some c') ∧
      c'.pix_bpp = c.pix_bpp ∧
      c'.vpm.vpm_region_updates = c.vpm.vpm_region_updates := by
  unfold vnc_send_resize
  split_ifs with hs
  · rw [show ({ vs with vcs := vs.vcs.map _ } : VncState).vcs
        = vs.vcs.map _ from rfl, List.getElem?_map, h]
    by_cases hp : c.pix_bpp ≠ 0
    · exact ⟨{ c with vpm := { c.vpm with vpm_resize := true } },
        by simp [hp], rfl, rfl⟩
    · exact ⟨c, by simp [hp], rfl, rfl⟩
  · exact ⟨c, h, rfl, rfl⟩

/-- The broadcast rectangle enqueue appends one rectangle to every
active client. -/
theorem send_framebuffer_update_all_get (vs : VncState) (x y w h : Nat)
    (i : Nat) (c : VncClientState)
    (hc : vs.vcs[i]? = some (some c)) (hp : c.pix_bpp ≠ 0) :
    (send_framebuffer_update_all vs x y w h).vcs[i]?
      = some (some (send_framebuffer_update c x y w h)) := by
  unfold send_framebuffer_update_all
  rw [show ({ vs with vcs := vs.vcs.map _ } : VncState).vcs
      = vs.vcs.map _ from rfl, List.getElem?_map, hc]
  simp [hp]

/-- Claim C5: refresh pacing.  The interval starts at the 30 ms base; a
tick without updates grows it by 50 ms saturating at 2000 ms; a tick
with updates halves it with a 30 ms floor; and once the interval sits
at the 2000 ms ceiling, a tick at least 5000 ms after the last
update-producing tick appends a one-by-one rectangle at the origin to
the pending queue of every active client and records the tick time. -/
theorem refresh_pacing :
    (∀ vs : VncState, vs.timer = false →
      (vnc_timer_init vs).timer_interval = VNC_REFRESH_INTERVAL_BASE) ∧
    (∀ (vs : VncState) (now : Int),
      ¬ (vs.has_update = true ∧ vs.visible_y < vs.ds_height ∧
          vs.visible_x < vs.ds_width) →
      (_vnc_update_client vs now).timer_interval
        = min (vs.timer_interval + VNC_REFRESH_INTERVAL_INC)
            VNC_REFRESH_INTERVAL_MAX) ∧
    (∀ (vs : VncState) (now : Int),
      vs.has_update = true → vs.visible_y < vs.ds_height →
      vs.visible_x < vs.ds_width →
      (_vnc_update_client vs now).timer_interval
        = max (Int.tdiv vs.timer_interval 2) VNC_REFRESH_INTERVAL_BASE) ∧
    (∀ (vs : VncState) (now : Int) (i : Nat) (c : VncClientState),
      ¬ (vs.has_update = true ∧ vs.visible_y < vs.ds_height ∧
          vs.visible_x < vs.ds_width) →
      vs.timer_interval = VNC_REFRESH_INTERVAL_MAX →
      now - vs.last_update_time ≥ VNC_MAX_UPDATE_INTERVAL →
      vs.vcs[i]? = some (some c) → c.pix_bpp ≠ 0 →
      (∃ c', (_vnc_update_client vs now).vcs[i]? = some (some c') ∧
        c'.vpm.vpm_region_updates
          = c.vpm.vpm_region_updates ++ [(0, 0, 1, 1)]) ∧
      (_vnc_update_client vs now).last_update_time = now) := by
  refine ⟨?_, ?_, ?_, ?_⟩
  · intro vs h
    simp [vnc_timer_init, h, VNC_REFRESH_INTERVAL_BASE]
  · intro vs now h
    unfold _vnc_update_client
    rw [if_neg h]
    dsimp only
    split_ifs with h1 h2
    · rw [show ({ (send_framebuffer_update_all
            (vnc_send_resize { vs with timer_interval := VNC_REFRESH_INTERVAL_MAX })
            0 0 1 1) with last_update_time := now } : VncState).timer_interval
          = (send_framebuffer_update_all
            (vnc_send_resize { vs with timer_interval := VNC_REFRESH_INTERVAL_MAX })
            0 0 1 1).timer_interval from rfl,
        send_framebuffer_update_all_timer_interval,
        vnc_send_resize_timer_interval]
      unfold VNC_REFRESH_INTERVAL_INC VNC_REFRESH_INTERVAL_MAX at h1 ⊢
      dsimp only
      omega
    · unfold VNC_REFRESH_INTERVAL_INC VNC_REFRESH_INTERVAL_MAX at h1 ⊢
      dsimp only
      omega
    · unfold VNC_REFRESH_INTERVAL_INC VNC_REFRESH_INTERVAL_MAX at h1 ⊢
      dsimp only
      omega
  · intro vs now h1 h2 h3
    unfold _vnc_update_client
    rw [if_pos ⟨h1, h2, h3⟩]
    dsimp only
    split_ifs with h4
    · rw [vnc_send_resize_timer_interval] at h4
      dsimp only at h4
      exact (max_eq_right h4.le).symm
    · rw [vnc_send_resize_timer_interval] at h4
      dsimp only at h4
      rw [vnc_send_resize_timer_interval]
      dsimp only
      exact (max_eq_left (le_of_not_lt h4)).symm
  · intro vs now i c h ht hidle hc hp
    unfold _vnc_update_client
    rw [if_neg h]
    dsimp only
    rw [if_pos (by rw [ht]; decide)]
    rw [if_pos (by
      show now - vs.last_update_time ≥ VNC_MAX_UPDATE_INTERVAL
      exact hidle)]
    obtain ⟨c1, hc1, hpix1, hrup1⟩ := vnc_send_resize_get
      { vs with timer_interval := VNC_REFRESH_INTERVAL_MAX } i c hc
    constructor
    · refine ⟨send_framebuffer_update c1 0 0 1 1, ?_, ?_⟩
      · rw [show ({ (send_framebuffer_update_all
            (vnc_send_resize { vs with timer_interval := VNC_REFRESH_INTERVAL_MAX })
            0 0 1 1) with last_update_time := now } : VncState).vcs
          = (send_framebuffer_update_all
            (vnc_send_resize { vs with timer_interval := VNC_REFRESH_INTERVAL_MAX })
            0 0 1 1).vcs from rfl]
        exact send_framebuffer_update_all_get _ 0 0 1 1 i c1 hc1
          (by rw [hpix1]; exact hp)
      · unfold send_framebuffer_update
        dsimp only
        rw [hrup1]
    · rfl

end Vnc

namespace Vnc

/-- Concrete instances of the four refresh-pacing behaviours on the
demonstration server. -/
theorem refresh_pacing_witness :
    (vnc_timer_init { demo_server with timer := false }).timer_interval
        = VNC_REFRESH_INTERVAL_BASE ∧
      (_vnc_update_client demo_server 6000).timer_interval
        = min (demo_server.timer_interval + VNC_REFRESH_INTERVAL_INC)
            VNC_REFRESH_INTERVAL_MAX ∧
      (_vnc_update_client { demo_server with has_update := true }
          6000).timer_interval
        = max (Int.tdiv { demo_server with has_update := true }.timer_interval 2)
            VNC_REFRESH_INTERVAL_BASE ∧
      ((∃ c', (_vnc_update_client { demo_server with timer_interval := 2000 }
            6000).vcs[0]? = some (some c') ∧
          c'.vpm.vpm_region_updates
            = demo_client.vpm.vpm_region_updates ++ [(0, 0, 1, 1)]) ∧
        (_vnc_update_client { demo_server with timer_interval := 2000 }
            6000).last_update_time = 6000) := by
  refine ⟨refresh_pacing.1 _ rfl, ?_, ?_, ?_⟩
  · exact refresh_pacing.2.1 demo_server 6000 (by decide)
  · exact refresh_pacing.2.2.1 { demo_server with has_update := true } 6000
      rfl (by decide) (by decide)
  · exact refresh_pacing.2.2.2 { demo_server with timer_interval := 2000 }
      6000 0 demo_client (by decide) rfl (by decide) rfl (by decide)

end Vnc

namespace Vnc

/-- The pointer-mode reconciliation leaves every capability flag alone. -/
theorem check_pointer_type_change_flags (vs : VncState)
    (vcs : VncClientState) (a : Int) :
    (check_pointer_type_change vs vcs a).has_resize = vcs.has_resize ∧
      (check_pointer_type_change vs vcs a).has_hextile = vcs.has_hextile ∧
      (check_pointer_type_change vs vcs a).has_pointer_type_change
        = vcs.has_pointer_type_change ∧
      (check_pointer_type_change vs vcs a).has_cursor_encoding
        = vcs.has_cursor_encoding := by
  unfold check_pointer_type_change vnc_framebuffer_update vnc_write
  split_ifs <;> exact ⟨rfl, rfl, rfl, rfl⟩

/-- One encoding id changes the resize flag only on -223. -/
theorem set_encodings_step_has_resize (c : VncClientState) (e : Int) :
    (set_encodings_step c e).has_resize
      = if e = -223 then true else c.has_resize := by
  unfold set_encodings_step
  split_ifs <;> first | rfl | omega

/-- One encoding id changes the cursor flag only on -239. -/
theorem set_encodings_step_has_cursor (c : VncClientState) (e : Int) :
    (set_encodings_step c e).has_cursor_encoding
      = if e = -239 then true else c.has_cursor_encoding := by
  unfold set_encodings_step
  split_ifs <;> first | rfl | omega

/-- One encoding id changes the pointer-type flag only on -257. -/
theorem set_encodings_step_has_ptc (c : VncClientState) (e : Int) :
    (set_encodings_step c e).has_pointer_type_change
      = if e = -257 then true else c.has_pointer_type_change := by
  unfold set_encodings_step
  split_ifs <;> first | rfl | omega

/-- One encoding id forces the hextile flag on 0 and 5 and keeps it
otherwise. -/
theorem set_encodings_step_has_hextile (c : VncClientState) (e : Int) :
    (set_encodings_step c e).has_hextile
      = if e = 0 then false else if e = 5 then true else c.has_hextile := by
  unfold set_encodings_step
  split_ifs <;> first | rfl | omega

/-- The backwards fold over the encoding list: membership decides the
three simple flags, and the earliest id among 0 and 5 decides the
hextile flag. -/
theorem set_encodings_foldr_flags (L : List Int) (c : VncClientState) :
    let r := L.foldr (fun e c => set_encodings_step c e) c
    r.has_resize = (c.has_resize || decide ((-223 : Int) ∈ L)) ∧
      r.has_cursor_encoding
        = (c.has_cursor_encoding || decide ((-239 : Int) ∈ L)) ∧
      r.has_pointer_type_change
        = (c.has_pointer_type_change || decide ((-257 : Int) ∈ L)) ∧
      r.has_hextile = (match first_raw_or_hextile L with
        | some e => decide (e = 5)
        | none => c.has_hextile) := by
  induction L with
  | nil => simp [first_raw_or_hextile]
  | cons a L ih =>
    obtain ⟨ih1, ih2, ih3, ih4⟩ := ih
    refine ⟨?_, ?_, ?_, ?_⟩
    · rw [List.foldr_cons, set_encodings_step_has_resize, ih1]
      by_cases ha : a = -223
      · simp [ha]
      · simp [ha, Ne.symm ha]
    · rw [List.foldr_cons, set_encodings_step_has_cursor, ih2]
      by_cases ha : a = -239
      · simp [ha]
      · simp [ha, Ne.symm ha]
    · rw [List.foldr_cons, set_encodings_step_has_ptc, ih3]
      by_cases ha : a = -257
      · simp [ha]
      · simp [ha, Ne.symm ha]
    · rw [List.foldr_cons, set_encodings_step_has_hextile, ih4]
      by_cases h0 : a = 0
      · simp [first_raw_or_hextile, h0]
      · by_cases h5 : a = 5
        · simp [first_raw_or_hextile, h5]
        · simp [first_raw_or_hextile, h0, h5]

/-- Claim C10, counterexample: SetEncodings with the list Raw then
Hextile leaves has_hextile off although 5 is in the list: the ids are
processed backwards, so the earlier Raw overrides the later Hextile. -/
theorem set_encodings_raw_overrides_hextile :
    (set_encodings demo_server demo_client [0, 5] 1).has_hextile = false ∧
      (5 : Int) ∈ ([0, 5] : List Int) := by
  exact ⟨rfl, by decide⟩

/-- Claim C10, amended: SetEncodings is absolute for the resize, cursor
and pointer-type-change capabilities, which afterwards hold exactly
when their ids appear in the newest list; the hextile capability
instead follows the earliest id among Raw 0 and Hextile 5 in the list,
because the flags are cleared first and the list is then walked from
its last entry to its first. -/
theorem set_encodings_flags (vs : VncState) (vcs : VncClientState)
    (L : List Int) (abs : Int) :
    ((set_encodings vs vcs L abs).has_resize = true ↔ (-223 : Int) ∈ L) ∧
      ((set_encodings vs vcs L abs).has_cursor_encoding = true ↔
        (-239 : Int) ∈ L) ∧
      ((set_encodings vs vcs L abs).has_pointer_type_change = true ↔
        (-257 : Int) ∈ L) ∧
      ((set_encodings vs vcs L abs).has_hextile = true ↔
        first_raw_or_hextile L = some 5) := by
  unfold set_encodings
  have hbase := set_encodings_foldr_flags L
    { vcs with has_hextile := false, has_resize := false,
               has_pointer_type_change := false,
               has_cursor_encoding := false, absolute := -1 }
  obtain ⟨hb1, hb2, hb3, hb4⟩ := hbase
  have hc := check_pointer_type_change_flags vs
    (L.foldr (fun e c => set_encodings_step c e)
      { vcs with has_hextile := false, has_resize := false,
                 has_pointer_type_change := false,
                 has_cursor_encoding := false, absolute := -1 }) abs
  obtain ⟨hc1, hc2, hc3, hc4⟩ := hc
  refine ⟨?_, ?_, ?_, ?_⟩
  · rw [hc1, hb1]; simp
  · rw [hc4, hb2]; simp
  · rw [hc3, hb3]; simp
  · rw [hc2, hb4]
    cases hfe : first_raw_or_hextile L with
    | none => simp
    | some e => simp [decide_eq_true_eq]

end Vnc

namespace Console

/-- A digit byte extends the open parameter slot while fewer than
MAX_ESC_PARAMS parameters are open, and always marks a parameter as
open. -/
theorem handle_params_digit (s : TextConsole) (c : Nat)
    (h1 : 48 ≤ c) (h2 : c ≤ 57) :
    handle_params s c =
      ({ (if s.nb_esc_params < MAX_ESC_PARAMS then
            setParam s s.nb_esc_params
              (s.esc_params s.nb_esc_params * 10 + ((c : Int) - 48))
          else s) with has_esc_param := true }, false) := by
  unfold handle_params
  rw [if_pos ⟨h1, h2⟩]

/-- Any byte that is neither a digit nor a question mark closes the open
parameter, bumping the count exactly when one was open. -/
theorem handle_params_close (s : TextConsole) (c : Nat)
    (hc : ¬ (48 ≤ c ∧ c ≤ 57)) (h63 : c ≠ 63) :
    (handle_params s c).1 =
      (if s.has_esc_param then
        { s with nb_esc_params := s.nb_esc_params + 1, has_esc_param := false }
      else { s with has_esc_param := false }) := by
  unfold handle_params
  rw [if_neg hc, if_neg h63]
  split_ifs <;> rfl

/-- Feeding a run of digit bytes accumulates their decimal value onto the
open slot when fewer than MAX_ESC_PARAMS parameters are open, touches no
other slot and no counter, and marks a parameter open when the run is
not empty. -/
theorem feed_params_digits (ds : List Nat) :
    ∀ s : TextConsole, (∀ d ∈ ds, d < 10) →
    (feed_params s (ds.map (fun d => d + 48))).nb_esc_params
        = s.nb_esc_params ∧
      (feed_params s (ds.map (fun d => d + 48))).has_qmark = s.has_qmark ∧
      (feed_params s (ds.map (fun d => d + 48))).has_esc_param
        = (if ds.isEmpty then s.has_esc_param else true) ∧
      (∀ i, ¬ (i = s.nb_esc_params ∧ s.nb_esc_params < MAX_ESC_PARAMS) →
        (feed_params s (ds.map (fun d => d + 48))).esc_params i
          = s.esc_params i) ∧
      (s.nb_esc_params < MAX_ESC_PARAMS →
        (feed_params s (ds.map (fun d => d + 48))).esc_params s.nb_esc_params
          = ds.foldl (fun a d => a * 10 + (d : Int))
              (s.esc_params s.nb_esc_params)) := by
  induction ds with
  | nil => intro s _; exact ⟨rfl, rfl, rfl, fun i _ => rfl, fun _ => rfl⟩
  | cons d ds ih =>
    intro s hds
    have hfeed : feed_params s ((d :: ds).map (fun e => e + 48))
        = feed_params ((handle_params s (d + 48)).1)
            (ds.map (fun e => e + 48)) := by
      simp [feed_params]
    have hd : d < 10 := hds d (List.mem_cons_self d ds)
    have hstep := handle_params_digit s (d + 48) (by omega) (by omega)
    have h1nb : ((handle_params s (d + 48)).1).nb_esc_params
        = s.nb_esc_params := by
      rw [hstep]
      split_ifs <;> rfl
    have h1qm : ((handle_params s (d + 48)).1).has_qmark = s.has_qmark := by
      rw [hstep]
      split_ifs <;> rfl
    have h1he : ((handle_params s (d + 48)).1).has_esc_param = true := by
      rw [hstep]
    have h1esc : ∀ i,
        ¬ (i = s.nb_esc_params ∧ s.nb_esc_params < MAX_ESC_PARAMS) →
        ((handle_params s (d + 48)).1).esc_params i = s.esc_params i := by
      intro i hi
      rw [hstep]
      split_ifs with hlt
      · have hne : i ≠ s.nb_esc_params := fun he => hi ⟨he, hlt⟩
        simp [setParam, hne]
      · rfl
    have h1hit : s.nb_esc_params < MAX_ESC_PARAMS →
        ((handle_params s (d + 48)).1).esc_params s.nb_esc_params
          = s.esc_params s.nb_esc_params * 10 + (d : Int) := by
      intro hlt
      rw [hstep, if_pos hlt]
      show (setParam s s.nb_esc_params _).esc_params s.nb_esc_params = _
      simp only [setParam, if_pos rfl]
      push_cast
      ring
    obtain ⟨ih1, ih2, ih3, ih4, ih5⟩ :=
      ih ((handle_params s (d + 48)).1)
        (fun e he => hds e (List.mem_cons_of_mem _ he))
    rw [hfeed]
    refine ⟨?_, ?_, ?_, ?_, ?_⟩
    · rw [ih1, h1nb]
    · rw [ih2, h1qm]
    · rw [ih3, h1he]
      simp
    · intro i hi
      rw [h1nb] at ih4
      rw [ih4 i hi, h1esc i hi]
    · intro hlt
      rw [h1nb] at ih5
      rw [ih5 hlt, h1hit hlt]
      simp [List.foldl_cons]

end Console

namespace Console

/-- Splitting a parameter walk at a list append. -/
theorem feed_params_append (s : TextConsole) (a b : List Nat) :
    feed_params s (a ++ b) = feed_params (feed_params s a) b := by
  simp [feed_params]

/-- A parameter walk over a single byte is one handle_params call. -/
theorem feed_params_single (s : TextConsole) (c : Nat) :
    feed_params s [c] = (handle_params s c).1 := by
  simp [feed_params]

/-- Parameter accumulation over a whole parameter list followed by a
final byte, stated from an arbitrary open-parameter-free state: the
count grows by the number of parameters; each parameter whose slot is
below MAX_ESC_PARAMS is recorded as its decimal value; every other slot
is untouched; the private flag is untouched. -/
theorem feed_params_run (ps : List (List Nat)) (f : Nat) :
    ∀ s : TextConsole,
    (∀ ds ∈ ps, ds ≠ [] ∧ ∀ d ∈ ds, d < 10) →
    s.has_esc_param = false →
    (∀ i, s.nb_esc_params ≤ i → s.esc_params i = 0) →
    ¬ (48 ≤ f ∧ f ≤ 57) → f ≠ 63 → f ≠ 59 →
    (feed_params s (params_bytes ps ++ [f])).nb_esc_params
        = s.nb_esc_params + ps.length ∧
      (∀ (i : Nat) (hi : i < ps.length), s.nb_esc_params + i < MAX_ESC_PARAMS →
        (feed_params s (params_bytes ps ++ [f])).esc_params
            (s.nb_esc_params + i) = decval (ps.get ⟨i, hi⟩)) ∧
      (∀ i, i < s.nb_esc_params ∨ s.nb_esc_params + ps.length ≤ i ∨
          MAX_ESC_PARAMS ≤ i →
        (feed_params s (params_bytes ps ++ [f])).esc_params i
          = s.esc_params i) ∧
      (feed_params s (params_bytes ps ++ [f])).has_qmark = s.has_qmark := by
  induction ps with
  | nil =>
    intro s _ hhe _ hf1 hf2 _
    have h : feed_params s (params_bytes [] ++ [f]) = (handle_params s f).1 := by
      simp [params_bytes, feed_params]
    rw [h, handle_params_close s f hf1 hf2, if_neg (by rw [hhe]; exact fun h => by cases h)]
    exact ⟨by simp, fun i hi => absurd hi (by simp), fun i _ => rfl, rfl⟩
  | cons ds ps' ih =>
    intro s hps hhe hclean hf1 hf2 hf3
    have hds := hps ds (List.mem_cons_self ds ps')
    have hdsne : ds.isEmpty = false := by
      cases ds with
      | nil => exact absurd rfl hds.1
      | cons a l => rfl
    obtain ⟨d1, d2, d3, d4, d5⟩ := feed_params_digits ds s hds.2
    have d3' : (feed_params s (ds.map (fun d => d + 48))).has_esc_param
        = true := by
      rw [d3, hdsne]
      simp
    cases ps' with
    | nil =>
      have hb : params_bytes [ds] ++ [f] = ds.map (fun d => d + 48) ++ [f] := by
        rfl
      rw [hb, feed_params_append, feed_params_single,
        handle_params_close _ f hf1 hf2, if_pos d3']
      refine ⟨by simp [d1], ?_, ?_, by simp [d2]⟩
      · intro i hi hlt
        have hi0 : i = 0 := by
          simp at hi
          omega
        subst hi0
        show (feed_params s (ds.map (fun d => d + 48))).esc_params
            (s.nb_esc_params + 0) = decval ds
        rw [Nat.add_zero, d5 (by omega), hclean s.nb_esc_params le_rfl]
        rfl
      · intro i hi
        show (feed_params s (ds.map (fun d => d + 48))).esc_params i
          = s.esc_params i
        refine d4 i ?_
        simp at hi
        omega
    | cons ds2 ps'' =>
      have hb : params_bytes (ds :: ds2 :: ps'') ++ [f]
          = ds.map (fun d => d + 48) ++
            ([59] ++ (params_bytes (ds2 :: ps'') ++ [f])) := by
        simp [params_bytes]
      rw [hb, feed_params_append, feed_params_append, feed_params_single,
        handle_params_close _ 59 (by omega) (by omega), if_pos d3']
      set s1 := feed_params s (ds.map (fun d => d + 48)) with hs1
      set s2 : TextConsole :=
        { s1 with nb_esc_params := s1.nb_esc_params + 1,
                  has_esc_param := false } with hs2
      have hs2nb : s2.nb_esc_params = s.nb_esc_params + 1 := by
        rw [hs2]
        show s1.nb_esc_params + 1 = s.nb_esc_params + 1
        rw [d1]
      have hs2esc : ∀ i, i ≠ s.nb_esc_params → s2.esc_params i
          = s.esc_params i := by
        intro i hne
        show s1.esc_params i = s.esc_params i
        exact d4 i (fun hh => hne hh.1)
      have hs2hit : s.nb_esc_params < MAX_ESC_PARAMS →
          s2.esc_params s.nb_esc_params = decval ds := by
        intro hlt
        show s1.esc_params s.nb_esc_params = decval ds
        rw [d5 hlt, hclean s.nb_esc_params le_rfl]
        rfl
      obtain ⟨ih1, ih2, ih3, ih4⟩ := ih s2
        (fun e he => hps e (List.mem_cons_of_mem _ he)) rfl
        (by
          intro i hi
          rw [hs2nb] at hi
          rw [hs2esc i (by omega)]
          exact hclean i (by omega))
        hf1 hf2 hf3
      refine ⟨?_, ?_, ?_, ?_⟩
      · rw [ih1, hs2nb]
        simp only [List.length_cons]
        omega
      · intro i hi hlt
        cases i with
        | zero =>
          rw [Nat.add_zero]
          rw [ih3 s.nb_esc_params (by omega)]
          rw [hs2hit (by omega)]
          rfl
        | succ k =>
          have hk : k < (ds2 :: ps'').length := by
            simp only [List.length_cons] at hi ⊢
            omega
          have := ih2 k hk (by omega)
          rw [hs2nb] at this
          rw [show s.nb_esc_params + (k + 1) = s.nb_esc_params + 1 + k
            from by omega, this]
          rfl
      · intro i hi
        have hi' : i < s2.nb_esc_params ∨
            s2.nb_esc_params + (ds2 :: ps'').length ≤ i ∨
            MAX_ESC_PARAMS ≤ i := by
          rw [hs2nb]
          simp only [List.length_cons] at hi ⊢
          omega
        rw [ih3 i hi']
        show s1.esc_params i = s.esc_params i
        refine d4 i ?_
        rintro ⟨he, hlt⟩
        subst he
        simp only [List.length_cons] at hi
        omega
      · rw [ih4]
        show s1.has_qmark = s.has_qmark
        exact d2

/-- C2 (corrected): CSI parameter accumulation.  Feeding a CSI parameter
string — runs of decimal digits separated by ';' and closed by a
non-digit final byte — through handle_params records the decimal value
of each run into consecutive esc_params slots and counts every run in
nb_esc_params, and a '?' byte sets the private-mode flag has_qmark; but
the slot cap MAX_ESC_PARAMS is 3, not at least 16, so runs at index ≥ 3
are counted while their digits are discarded and their slots stay 0. -/
theorem csi_param_accumulation (ps : List (List Nat)) (f : Nat)
    (s : TextConsole)
    (hps : ∀ ds ∈ ps, ds ≠ [] ∧ ∀ d ∈ ds, d < 10)
    (hhe : s.has_esc_param = false)
    (hnb : s.nb_esc_params = 0)
    (hclean : ∀ i, s.esc_params i = 0)
    (hf1 : ¬ (48 ≤ f ∧ f ≤ 57)) (hf2 : f ≠ 63) (hf3 : f ≠ 59) :
    MAX_ESC_PARAMS = 3 ∧
    (feed_params s (params_bytes ps ++ [f])).nb_esc_params = ps.length ∧
    (∀ (i : Nat) (hi : i < ps.length), i < MAX_ESC_PARAMS →
      (feed_params s (params_bytes ps ++ [f])).esc_params i
        = decval (ps.get ⟨i, hi⟩)) ∧
    (∀ i, ps.length ≤ i ∨ MAX_ESC_PARAMS ≤ i →
      (feed_params s (params_bytes ps ++ [f])).esc_params i = 0) ∧
    (feed_params s [63]).has_qmark = true := by
  obtain ⟨h1, h2, h3, _⟩ :=
    feed_params_run ps f s hps hhe (fun i _ => hclean i) hf1 hf2 hf3
  rw [hnb] at h1 h2 h3
  refine ⟨rfl, by rw [h1, Nat.zero_add], ?_, ?_, ?_⟩
  · intro i hi hm
    have h := h2 i hi (by rw [Nat.zero_add]; exact hm)
    rwa [Nat.zero_add] at h
  · intro i hi
    rw [h3 i (by omega), hclean i]
  · rfl

/-- Witness for csi_param_accumulation: the parameter string "4;2m" on a
fresh console. -/
theorem csi_param_accumulation_witness :
    MAX_ESC_PARAMS = 3 ∧
    (feed_params (text_console_init 640 384)
        (params_bytes [[4], [2]] ++ [109])).nb_esc_params
      = [[4], [2]].length ∧
    (∀ (i : Nat) (hi : i < [[4], [2]].length), i < MAX_ESC_PARAMS →
      (feed_params (text_console_init 640 384)
          (params_bytes [[4], [2]] ++ [109])).esc_params i
        = decval ([[4], [2]].get ⟨i, hi⟩)) ∧
    (∀ i, [[4], [2]].length ≤ i ∨ MAX_ESC_PARAMS ≤ i →
      (feed_params (text_console_init 640 384)
          (params_bytes [[4], [2]] ++ [109])).esc_params i = 0) ∧
    (feed_params (text_console_init 640 384) [63]).has_qmark = true :=
  csi_param_accumulation [[4], [2]] 109 (text_console_init 640 384)
    (by decide) rfl rfl (fun i => rfl) (by decide) (by decide) (by decide)

end Console
